import Mathlib

/-!
# Procurement system: purchase creation, item inventory and authentication

A shallow embedding of the Go handlers of the procurement backend
(`handlers/purchasing.go`, `handlers/item.go`, `handlers/supplier.go`,
`handlers/auth.go`, `middleware/auth.go`, `main.go`) and proofs about them.

Conventions.
* Money values (`float64` in the source) range over an arbitrary carrier `M`
  with the operations the source uses (`0`, `+`, `*`, the conversion from
  `int`, `<`).  No law of arithmetic is assumed, so every statement holds for
  any interpretation of these operations, IEEE doubles included.
* Go `int` and `uint` values are `Int` and `Nat`.  The only integer arithmetic
  in the handlers is `item.Stock - itemReq.Qty`, executed under the guards
  `0 < Qty` and `Qty ≤ Stock`, where it cannot overflow.
* The relational store is a record of row lists.  `gorm.DeletedAt` is the flag
  `Deleted`; the `CreatedAt`/`UpdatedAt` columns are not modelled.
* A store call can fail.  Each request carries an oracle `fail : Site → Bool`
  that says which of its store calls fail.
-/

namespace Procurement

/-! ## Data model (`models/models.go`) -/

/-- User row. -/
structure User where
  ID : Nat
  Username : String
  Password : String
  Role : String
  Deleted : Bool
deriving DecidableEq, Repr

/-- Supplier row. -/
structure Supplier where
  ID : Nat
  Name : String
  Email : String
  Address : String
  Deleted : Bool
deriving DecidableEq, Repr

/-- Item row. -/
structure Item (M : Type) where
  ID : Nat
  Name : String
  Stock : Int
  Price : M
  Deleted : Bool
deriving DecidableEq, Repr

/-- Purchasing (order header) row. -/
structure Purchasing (M : Type) where
  ID : Nat
  Date : Nat
  SupplierID : Nat
  UserID : Nat
  GrandTotal : M
  Deleted : Bool
deriving DecidableEq, Repr

/-- PurchasingDetail (order line) row. -/
structure PurchasingDetail (M : Type) where
  ID : Nat
  PurchasingID : Nat
  ItemID : Nat
  Qty : Int
  SubTotal : M
  Deleted : Bool
deriving DecidableEq, Repr

/-- The relational store: one list of rows per table, in insertion order. -/
structure DB (M : Type) where
  users : List User
  suppliers : List Supplier
  items : List (Item M)
  purchasings : List (Purchasing M)
  details : List (PurchasingDetail M)
deriving DecidableEq, Repr

/-- The store before any request. -/
def DB.empty {M : Type} : DB M := ⟨[], [], [], [], []⟩

/-! ## Store calls

The calls of the ORM that the handlers use, on the row lists. -/

/-- The places where a handler calls the store, so that an oracle can say which
call fails: `find`, `first`, `create`, `save` and `delete` for the handlers that
make one call of each kind at most, and one place for each call of
`CreatePurchase` after the supplier lookup.  The calls inside its loop carry the
index of the request line. -/
inductive Site where
  | find
  | first
  | create
  | save
  | delete
  | begin
  | createHeader
  | firstItem (k : Nat)
  | createDetail (k : Nat)
  | updateStock (k : Nat)
  | updateTotal
  | commit
  | reload
deriving DecidableEq, Repr

/-- The oracle under which no call fails. -/
def noFail : Site → Bool := fun _ => false

/-- The primary key given to a new row: one more than the largest key in the
table (soft-deleted rows included). -/
def nextID (ids : List Nat) : Nat := ids.foldr max 0 + 1

/-- `First(&user, id)`: the live user row with this primary key. -/
def firstUser (rows : List User) (id : Nat) : Option User :=
  rows.find? (fun r => r.ID == id && !r.Deleted)

/-- `Where("username = ?", name).First(&user)`. -/
def firstUserByName (rows : List User) (name : String) : Option User :=
  rows.find? (fun r => r.Username == name && !r.Deleted)

/-- `First(&supplier, id)`: the live supplier row with this primary key. -/
def firstSupplier (rows : List Supplier) (id : Nat) : Option Supplier :=
  rows.find? (fun r => r.ID == id && !r.Deleted)

/-- `First(&item, id)`: the live item row with this primary key. -/
def firstItem {M : Type} (rows : List (Item M)) (id : Nat) : Option (Item M) :=
  rows.find? (fun r => r.ID == id && !r.Deleted)

/-- `First(&purchase, id)`: the live order header with this primary key. -/
def firstPurchasing {M : Type} (rows : List (Purchasing M)) (id : Nat) :
    Option (Purchasing M) :=
  rows.find? (fun r => r.ID == id && !r.Deleted)

/-- `tx.Model(&item).Update("stock", v)`: sets the stock of the live rows with
the primary key of `item`. -/
def updateStock {M : Type} (rows : List (Item M)) (id : Nat) (v : Int) : List (Item M) :=
  rows.map (fun r => if r.ID == id && !r.Deleted then { r with Stock := v } else r)

/-- `tx.Model(&purchase).Update("grand_total", v)`. -/
def updateGrandTotal {M : Type} (rows : List (Purchasing M)) (id : Nat) (v : M) :
    List (Purchasing M) :=
  rows.map (fun r => if r.ID == id && !r.Deleted then { r with GrandTotal := v } else r)

/-- A transaction: the committed store at `Begin` and the store as seen inside
the transaction. -/
structure Tx (M : Type) where
  committed : DB M
  work : DB M

/-- `database.DB.Begin()`. -/
def Begin {M : Type} (db : DB M) : Tx M := ⟨db, db⟩

/-- `tx.Rollback()`: the committed store is the one at `Begin`. -/
def Rollback {M : Type} (tx : Tx M) : DB M := tx.committed

/-- `tx.Commit()` when it succeeds: the writes of the transaction are committed. -/
def Commit {M : Type} (tx : Tx M) : DB M := tx.work

/-! ## Responses -/

/-- A detail row with its preloaded item. -/
structure DetailView (M : Type) where
  detail : PurchasingDetail M
  item : Option (Item M)
deriving DecidableEq, Repr

/-- An order header with its preloaded supplier, user and lines. -/
structure PurchaseView (M : Type) where
  header : Purchasing M
  supplier : Option Supplier
  user : Option User
  details : List (DetailView M)
deriving DecidableEq, Repr

/-- The `data` field of a response. -/
inductive Data (M : Type) where
  | user (id : Nat) (username role : String)
  | session (token : String) (id : Nat) (username role : String)
  | item (it : Item M)
  | items (l : List (Item M))
  | supplier (s : Supplier)
  | suppliers (l : List Supplier)
  | purchase (p : Option (PurchaseView M))
  | purchases (l : List (PurchaseView M))
deriving DecidableEq, Repr

/-- The JSON envelope `fiber.Map{"success", "message", "data"}` with its status code. -/
structure Response (M : Type) where
  status : Nat
  success : Option Bool
  message : Option String
  data : Option (Data M)
  other : List (String × String)
deriving DecidableEq, Repr

/-- `c.Status(code).JSON(fiber.Map{"success": false, "message": msg})`. -/
def failure {M : Type} (code : Nat) (msg : String) : Response M :=
  ⟨code, some false, some msg, none, []⟩

/-- `c.Status(code).JSON(fiber.Map{"success": true, "message": msg, "data": d})`;
`c.JSON` alone answers with status 200. -/
def success {M : Type} (code : Nat) (msg : Option String) (d : Option (Data M)) : Response M :=
  ⟨code, some true, msg, d, []⟩

/-- `Preload("Supplier").Preload("User").Preload("PurchasingDetails.Item")` on one header. -/
def preload {M : Type} (db : DB M) (p : Purchasing M) : PurchaseView M :=
  { header := p
    supplier := firstSupplier db.suppliers p.SupplierID
    user := firstUser db.users p.UserID
    details := (db.details.filter (fun d => d.PurchasingID == p.ID && !d.Deleted)).map
      (fun d => ⟨d, firstItem db.items d.ItemID⟩) }

/-! ## Purchase creation (`handlers/purchasing.go`) -/

/-- One requested line. -/
structure PurchaseItemRequest where
  ItemID : Nat
  Qty : Int
deriving DecidableEq, Repr

/-- The parsed body of `POST /api/purchases`. -/
structure CreatePurchaseRequest where
  SupplierID : Nat
  Items : List PurchaseItemRequest
deriving DecidableEq, Repr

/-- The message of the stock check. -/
def insufficientStockMsg (name : String) (available requested : Int) : String :=
  "Insufficient stock for item '" ++ name ++ "'. Available: " ++ toString available ++
    ", Requested: " ++ toString requested

/-- The loop `for _, itemReq := range req.Items` of `CreatePurchase`, from line
index `k` on, with the running `grandTotal` and the store `w` seen inside the
transaction.  An error is the response of the branch that rolls back. -/
def processItems {M : Type} [Add M] [Mul M] [IntCast M] (fail : Site → Bool)
    (purchaseID : Nat) :
    Nat → List PurchaseItemRequest → M → DB M → Except (Response M) (M × DB M)
  | _, [], grandTotal, w => .ok (grandTotal, w)
  | k, itemReq :: rest, grandTotal, w =>
    if itemReq.ItemID = 0 ∨ itemReq.Qty ≤ 0 then
      .error (failure 400 "Invalid item data: item_id and qty must be positive")
    else
      match (if fail (.firstItem k) then none else firstItem w.items itemReq.ItemID) with
      | none =>
        .error (failure 400 ("Item with ID " ++ toString itemReq.ItemID ++ " not found"))
      | some item =>
        if item.Stock < itemReq.Qty then
          .error (failure 400 (insufficientStockMsg item.Name item.Stock itemReq.Qty))
        else
          let subTotal := item.Price * ((itemReq.Qty : Int) : M)
          let grandTotal := grandTotal + subTotal
          let detail : PurchasingDetail M :=
            { ID := nextID (w.details.map (fun d => d.ID))
              PurchasingID := purchaseID
              ItemID := itemReq.ItemID
              Qty := itemReq.Qty
              SubTotal := subTotal
              Deleted := false }
          if fail (.createDetail k) then
            .error (failure 500 "Failed to create purchase detail")
          else
            let w := { w with details := w.details ++ [detail] }
            if fail (.updateStock k) then
              .error (failure 500 "Failed to update item stock")
            else
              processItems fail purchaseID (k + 1) rest grandTotal
                { w with items := updateStock w.items item.ID (item.Stock - itemReq.Qty) }

/-- `CreatePurchase`: the handler of `POST /api/purchases`, on the parsed body
`req`, for the authenticated `userID`, at time `now`.  Returns the response and
the committed store.  A `Commit` that fails commits nothing.  A reload that
fails leaves the `data` of the response without a purchase.  The webhook
notification runs detached after the response is built and writes nothing to
the store; it is not part of the result. -/
def CreatePurchase {M : Type} [Zero M] [Add M] [Mul M] [IntCast M] (fail : Site → Bool)
    (now : Nat) (userID : Nat) (db : DB M) (req : CreatePurchaseRequest) :
    Response M × DB M :=
  if req.SupplierID = 0 then
    (failure 400 "Supplier ID is required", db)
  else if req.Items.length = 0 then
    (failure 400 "At least one item is required", db)
  else
    match (if fail .first then none else firstSupplier db.suppliers req.SupplierID) with
    | none => (failure 400 "Supplier not found", db)
    | some _ =>
      if fail .begin then
        (failure 500 "Failed to start transaction", db)
      else
        let tx := Begin db
        let purchase : Purchasing M :=
          { ID := nextID (tx.work.purchasings.map (fun p => p.ID))
            Date := now
            SupplierID := req.SupplierID
            UserID := userID
            GrandTotal := 0
            Deleted := false }
        if fail .createHeader then
          (failure 500 "Failed to create purchase header", Rollback tx)
        else
          let tx := { tx with work := { tx.work with purchasings := tx.work.purchasings ++ [purchase] } }
          match processItems fail purchase.ID 0 req.Items 0 tx.work with
          | .error resp => (resp, Rollback tx)
          | .ok (grandTotal, w) =>
            if fail .updateTotal then
              (failure 500 "Failed to update grand total", Rollback tx)
            else
              let tx := { tx with work :=
                { w with purchasings := updateGrandTotal w.purchasings purchase.ID grandTotal } }
              if fail .commit then
                (failure 500 "Failed to commit transaction", tx.committed)
              else
                let db := Commit tx
                let completePurchase :=
                  if fail .reload then none
                  else (firstPurchasing db.purchasings purchase.ID).map (preload db)
                (success 201 (some "Purchase created successfully")
                  (some (.purchase completePurchase)), db)

/-- The price the store holds for the live item `id` (`0` when there is none). -/
def priceOf {M : Type} [Zero M] (db : DB M) (id : Nat) : M :=
  match firstItem db.items id with
  | some it => it.Price
  | none => 0

/-- The total of a request priced on the store `db`: the running sum of the
loop, line by line in request order, starting from `0`. -/
def requestTotal {M : Type} [Zero M] [Add M] [Mul M] [IntCast M] (db : DB M)
    (lines : List PurchaseItemRequest) : M :=
  lines.foldl (fun acc l => acc + priceOf db l.ItemID * ((l.Qty : Int) : M)) 0

/-- `GetAllPurchases`: the handler of `GET /api/purchases`. -/
def GetAllPurchases {M : Type} (fail : Site → Bool) (db : DB M) : Response M :=
  if fail .find then failure 500 "Failed to fetch purchases"
  else success 200 none
    (some (.purchases ((db.purchasings.filter (fun p => !p.Deleted)).map (preload db))))

/-- `GetPurchase`: the handler of `GET /api/purchases/:id`. -/
def GetPurchase {M : Type} (fail : Site → Bool) (db : DB M) (id : Nat) : Response M :=
  match (if fail .first then none else firstPurchasing db.purchasings id) with
  | none => failure 404 "Purchase not found"
  | some p => success 200 none (some (.purchase (some (preload db p))))

/-! ## Items (`handlers/item.go`) -/

/-- The parsed body of `POST /api/items`. -/
structure CreateItemRequest (M : Type) where
  Name : String
  Stock : Int
  Price : M
deriving DecidableEq, Repr

/-- The parsed body of `PUT /api/items/:id`. -/
structure UpdateItemRequest (M : Type) where
  Name : String
  Stock : Int
  Price : M
deriving DecidableEq, Repr

/-- `database.DB.Save(&item)`: writes every column of the live row with the
primary key of `item`. -/
def saveItem {M : Type} (rows : List (Item M)) (item : Item M) : List (Item M) :=
  rows.map (fun r => if r.ID == item.ID && !r.Deleted then item else r)

/-- `database.DB.Delete(&item)`: marks the live row with this primary key as deleted. -/
def deleteItem {M : Type} (rows : List (Item M)) (id : Nat) : List (Item M) :=
  rows.map (fun r => if r.ID == id && !r.Deleted then { r with Deleted := true } else r)

/-- `GetAllItems`: the handler of `GET /api/items`. -/
def GetAllItems {M : Type} (fail : Site → Bool) (db : DB M) : Response M :=
  if fail .find then failure 500 "Failed to fetch items"
  else success 200 none (some (.items (db.items.filter (fun r => !r.Deleted))))

/-- `GetItem`: the handler of `GET /api/items/:id`. -/
def GetItem {M : Type} (fail : Site → Bool) (db : DB M) (id : Nat) : Response M :=
  match (if fail .first then none else firstItem db.items id) with
  | none => failure 404 "Item not found"
  | some item => success 200 none (some (.item item))

/-- `CreateItem`: the handler of `POST /api/items`, on the parsed body. -/
def CreateItem {M : Type} [Zero M] [LT M] [∀ a b : M, Decidable (a < b)]
    (fail : Site → Bool) (db : DB M) (req : CreateItemRequest M) : Response M × DB M :=
  if req.Name = "" then (failure 400 "Item name is required", db)
  else if req.Price < 0 then (failure 400 "Price cannot be negative", db)
  else if req.Stock < 0 then (failure 400 "Stock cannot be negative", db)
  else
    let item : Item M :=
      { ID := nextID (db.items.map (fun r => r.ID))
        Name := req.Name
        Stock := req.Stock
        Price := req.Price
        Deleted := false }
    if fail .create then (failure 500 "Failed to create item", db)
    else (success 201 (some "Item created successfully") (some (.item item)),
      { db with items := db.items ++ [item] })

/-- `UpdateItem`: the handler of `PUT /api/items/:id`; `body` is `none` when
`BodyParser` fails. -/
def UpdateItem {M : Type} [Zero M] [LT M] [∀ a b : M, Decidable (a < b)]
    (fail : Site → Bool) (db : DB M) (id : Nat) (body : Option (UpdateItemRequest M)) :
    Response M × DB M :=
  match (if fail .first then none else firstItem db.items id) with
  | none => (failure 404 "Item not found", db)
  | some item =>
    match body with
    | none => (failure 400 "Invalid request body", db)
    | some req =>
      if req.Name = "" then (failure 400 "Item name is required", db)
      else if req.Price < 0 then (failure 400 "Price cannot be negative", db)
      else if req.Stock < 0 then (failure 400 "Stock cannot be negative", db)
      else
        let item := { item with Name := req.Name, Stock := req.Stock, Price := req.Price }
        if fail .save then (failure 500 "Failed to update item", db)
        else (success 200 (some "Item updated successfully") (some (.item item)),
          { db with items := saveItem db.items item })

/-- `DeleteItem`: the handler of `DELETE /api/items/:id`. -/
def DeleteItem {M : Type} (fail : Site → Bool) (db : DB M) (id : Nat) : Response M × DB M :=
  match (if fail .first then none else firstItem db.items id) with
  | none => (failure 404 "Item not found", db)
  | some item =>
    if fail .delete then (failure 500 "Failed to delete item", db)
    else (success 200 (some "Item deleted successfully") none,
      { db with items := deleteItem db.items item.ID })

/-! ## Suppliers (`handlers/supplier.go`) -/

/-- The parsed body of `POST /api/suppliers`. -/
structure CreateSupplierRequest where
  Name : String
  Email : String
  Address : String
deriving DecidableEq, Repr

/-- The parsed body of `PUT /api/suppliers/:id`. -/
structure UpdateSupplierRequest where
  Name : String
  Email : String
  Address : String
deriving DecidableEq, Repr

/-- `database.DB.Save(&supplier)`. -/
def saveSupplier (rows : List Supplier) (s : Supplier) : List Supplier :=
  rows.map (fun r => if r.ID == s.ID && !r.Deleted then s else r)

/-- `database.DB.Delete(&supplier)`. -/
def deleteSupplier (rows : List Supplier) (id : Nat) : List Supplier :=
  rows.map (fun r => if r.ID == id && !r.Deleted then { r with Deleted := true } else r)

/-- `GetAllSuppliers`: the handler of `GET /api/suppliers`. -/
def GetAllSuppliers {M : Type} (fail : Site → Bool) (db : DB M) : Response M :=
  if fail .find then failure 500 "Failed to fetch suppliers"
  else success 200 none (some (.suppliers (db.suppliers.filter (fun r => !r.Deleted))))

/-- `GetSupplier`: the handler of `GET /api/suppliers/:id`. -/
def GetSupplier {M : Type} (fail : Site → Bool) (db : DB M) (id : Nat) : Response M :=
  match (if fail .first then none else firstSupplier db.suppliers id) with
  | none => failure 404 "Supplier not found"
  | some s => success 200 none (some (.supplier s))

/-- `CreateSupplier`: the handler of `POST /api/suppliers`, on the parsed body. -/
def CreateSupplier {M : Type} (fail : Site → Bool) (db : DB M) (req : CreateSupplierRequest) :
    Response M × DB M :=
  if req.Name = "" then (failure 400 "Supplier name is required", db)
  else
    let supplier : Supplier :=
      { ID := nextID (db.suppliers.map (fun r => r.ID))
        Name := req.Name
        Email := req.Email
        Address := req.Address
        Deleted := false }
    if fail .create then (failure 500 "Failed to create supplier", db)
    else (success 201 (some "Supplier created successfully") (some (.supplier supplier)),
      { db with suppliers := db.suppliers ++ [supplier] })

/-- `UpdateSupplier`: the handler of `PUT /api/suppliers/:id`; `body` is `none`
when `BodyParser` fails. -/
def UpdateSupplier {M : Type} (fail : Site → Bool) (db : DB M) (id : Nat)
    (body : Option UpdateSupplierRequest) : Response M × DB M :=
  match (if fail .first then none else firstSupplier db.suppliers id) with
  | none => (failure 404 "Supplier not found", db)
  | some supplier =>
    match body with
    | none => (failure 400 "Invalid request body", db)
    | some req =>
      if req.Name = "" then (failure 400 "Supplier name is required", db)
      else
        let supplier :=
          { supplier with Name := req.Name, Email := req.Email, Address := req.Address }
        if fail .save then (failure 500 "Failed to update supplier", db)
        else (success 200 (some "Supplier updated successfully") (some (.supplier supplier)),
          { db with suppliers := saveSupplier db.suppliers supplier })

/-- `DeleteSupplier`: the handler of `DELETE /api/suppliers/:id`. -/
def DeleteSupplier {M : Type} (fail : Site → Bool) (db : DB M) (id : Nat) :
    Response M × DB M :=
  match (if fail .first then none else firstSupplier db.suppliers id) with
  | none => (failure 404 "Supplier not found", db)
  | some supplier =>
    if fail .delete then (failure 500 "Failed to delete supplier", db)
    else (success 200 (some "Supplier deleted successfully") none,
      { db with suppliers := deleteSupplier db.suppliers supplier.ID })

/-! ## Registration, login and profile (`handlers/auth.go`) -/

/-- The parsed body of `POST /api/auth/register`. -/
structure RegisterRequest where
  Username : String
  Password : String
  Role : String
deriving DecidableEq, Repr

/-- The parsed body of `POST /api/auth/login`. -/
structure LoginRequest where
  Username : String
  Password : String
deriving DecidableEq, Repr

/-- A value of a token claim (`interface{}` holding a decoded JSON value). -/
inductive JVal where
  | null
  | bool (b : Bool)
  | num (x : ℚ)
  | str (s : String)
  | arr
  | obj
deriving DecidableEq, Repr

/-- `jwt.MapClaims`. -/
abbrev MapClaims := List (String × JVal)

/-- `len(s)` of a Go string: its number of bytes. -/
def len (s : String) : Nat := s.utf8ByteSize

/-- `Register`: the handler of `POST /api/auth/register`, on the parsed body.
`hash` is `bcrypt.GenerateFromPassword` (`none` when it returns an error).
The insert fails when the oracle says so or when the unique index on
`username` is violated. -/
def Register {M : Type} (fail : Site → Bool) (hash : String → Option String) (db : DB M)
    (req : RegisterRequest) : Response M × DB M :=
  if req.Username = "" ∨ req.Password = "" then
    (failure 400 "Username and password are required", db)
  else if len req.Password < 6 then
    (failure 400 "Password must be at least 6 characters", db)
  else if ((if fail .first then none else firstUserByName db.users req.Username).isSome) then
    (failure 409 "Username already exists", db)
  else
    match hash req.Password with
    | none => (failure 500 "Failed to hash password", db)
    | some hashedPassword =>
      let role := if req.Role = "" then "user" else req.Role
      let user : User :=
        { ID := nextID (db.users.map (fun r => r.ID))
          Username := req.Username
          Password := hashedPassword
          Role := role
          Deleted := false }
      if fail .create ∨ db.users.any (fun r => r.Username == req.Username) then
        (failure 500 "Failed to create user", db)
      else
        (success 201 (some "User registered successfully")
          (some (.user user.ID user.Username user.Role)),
          { db with users := db.users ++ [user] })

/-- `Login`: the handler of `POST /api/auth/login`, on the parsed body, at time
`now` (Unix seconds).  `verify h p` says that `bcrypt.CompareHashAndPassword(h, p)`
returns no error; `sign` is `token.SignedString` with the configured secret. -/
def Login {M : Type} (fail : Site → Bool) (verify : String → String → Bool)
    (sign : MapClaims → Option String) (now : Nat) (db : DB M) (req : LoginRequest) :
    Response M :=
  if req.Username = "" ∨ req.Password = "" then
    failure 400 "Username and password are required"
  else
    match (if fail .first then none else firstUserByName db.users req.Username) with
    | none => failure 401 "Invalid username or password"
    | some user =>
      if !verify user.Password req.Password then
        failure 401 "Invalid username or password"
      else
        match sign [("user_id", .num user.ID), ("username", .str user.Username),
            ("role", .str user.Role), ("exp", .num ((now + 24 * 3600 : Nat) : ℚ))] with
        | none => failure 500 "Failed to generate token"
        | some tokenString =>
          success 200 (some "Login successful")
            (some (.session tokenString user.ID user.Username user.Role))

/-- `GetProfile`: the handler of `GET /api/profile`. -/
def GetProfile {M : Type} (fail : Site → Bool) (db : DB M) (userID : Nat) : Response M :=
  match (if fail .first then none else firstUser db.users userID) with
  | none => failure 404 "User not found"
  | some user => success 200 none (some (.user user.ID user.Username user.Role))

/-! ## Authentication middleware (`middleware/auth.go`) and dispatch (`main.go`, `routes/routes.go`) -/

/-- What `token.Claims` holds after `jwt.Parse`. -/
inductive TokenClaims where
  | mapClaims (m : MapClaims)
  | other
deriving DecidableEq, Repr

/-- The values the middleware puts in the request context (`c.Locals`). -/
structure Locals where
  userID : Nat
  username : String
  role : String
deriving DecidableEq, Repr

/-- How a middleware ends: it answers, it panics, or it calls the next handler. -/
inductive Handled (M : Type) where
  | respond (r : Response M)
  | panic (msg : String)
  | next (l : Locals)
deriving DecidableEq, Repr

/-- The name of the dynamic type of a claim in a failed type assertion. -/
def JVal.typeName : Option JVal → String
  | none => "nil"
  | some .null => "nil"
  | some (.bool _) => "bool"
  | some (.num _) => "float64"
  | some (.str _) => "string"
  | some .arr => "[]interface {}"
  | some .obj => "map[string]interface {}"

/-- The panic of a failed type assertion `v.(T)`. -/
def assertionPanic (v : Option JVal) (want : String) : String :=
  "interface conversion: interface {} is " ++ JVal.typeName v ++ ", not " ++ want

/-- `uint(x)` for a `float64`: the integer part (for a value outside the range
of `uint` the language leaves the result to the implementation). -/
def toUint (x : ℚ) : Nat := Int.toNat (Int.floor x)

/-- `AuthMiddleware`: on the value of the `Authorization` header (`""` when the
header is absent).  `parse` is `jwt.Parse` with the key function of the source:
`none` when it returns an error or the token is not valid (bad signature,
signing method other than HMAC, expired). -/
def AuthMiddleware {M : Type} (parse : String → Option TokenClaims) (authHeader : String) :
    Handled M :=
  if authHeader = "" then
    .respond (failure 401 "Authorization header is required")
  else
    let parts := authHeader.toList.splitOn (Char.ofNat 32)
    match parts with
    | [scheme, tokenChars] =>
      if scheme ≠ "Bearer".toList then
        .respond (failure 401 "Invalid authorization format. Use: Bearer <token>")
      else
        match parse (String.mk tokenChars) with
        | none => .respond (failure 401 "Invalid or expired token")
        | some .other => .respond (failure 401 "Invalid token claims")
        | some (.mapClaims claims) =>
          match claims.lookup "user_id" with
          | some (.num userID) =>
            match claims.lookup "username" with
            | some (.str username) =>
              match claims.lookup "role" with
              | some (.str role) => .next ⟨toUint userID, username, role⟩
              | v => .panic (assertionPanic v "string")
            | v => .panic (assertionPanic v "string")
          | v => .panic (assertionPanic v "float64")
    | _ => .respond (failure 401 "Invalid authorization format. Use: Bearer <token>")

/-- The `ErrorHandler` of `main.go` on an error that is not a `*fiber.Error`,
such as the one the recover middleware makes of a panic: status 500. -/
def ErrorHandler {M : Type} (msg : String) : Response M :=
  failure 500 msg

/-- The health check of `main.go`. -/
def health {M : Type} : Response M :=
  ⟨200, none, some "Procurement System API is running", none, [("status", "ok")]⟩

/-- What a request carries besides its route: the outcome of its store calls,
the clock, and the outcome of its calls to the password and token libraries. -/
structure Env where
  fail : Site → Bool
  now : Nat
  hash : String → Option String
  verify : String → String → Bool
  sign : MapClaims → Option String
  parse : String → Option TokenClaims

/-- The routes of the protected group of `SetupRoutes`, with their path
parameter and body (`none` when `BodyParser` fails). -/
inductive ProtectedRequest (M : Type) where
  | getProfile
  | getAllItems
  | getItem (id : Nat)
  | createItem (body : Option (CreateItemRequest M))
  | updateItem (id : Nat) (body : Option (UpdateItemRequest M))
  | deleteItem (id : Nat)
  | getAllSuppliers
  | getSupplier (id : Nat)
  | createSupplier (body : Option CreateSupplierRequest)
  | updateSupplier (id : Nat) (body : Option UpdateSupplierRequest)
  | deleteSupplier (id : Nat)
  | getAllPurchases
  | getPurchase (id : Nat)
  | createPurchase (body : Option CreatePurchaseRequest)

/-- The routes of `SetupRoutes` and `main`: the public ones, and the protected
ones with the value of the `Authorization` header of the request. -/
inductive Request (M : Type) where
  | health
  | register (body : Option RegisterRequest)
  | login (body : Option LoginRequest)
  | secured (authHeader : String) (r : ProtectedRequest M)

/-- The first step of the handlers that parse a body before anything else. -/
def withBody {M : Type} {α : Type} (body : Option α) (db : DB M)
    (h : α → Response M × DB M) : Response M × DB M :=
  match body with
  | none => (failure 400 "Invalid request body", db)
  | some req => h req

/-- The handler of a route of the protected group, run with the context the
middleware has filled. -/
def handle {M : Type} [Zero M] [Add M] [Mul M] [IntCast M] [LT M]
    [∀ a b : M, Decidable (a < b)] (env : Env) (l : Locals) (db : DB M) :
    ProtectedRequest M → Response M × DB M
  | .getProfile => (GetProfile env.fail db l.userID, db)
  | .getAllItems => (GetAllItems env.fail db, db)
  | .getItem id => (GetItem env.fail db id, db)
  | .createItem body => withBody body db (CreateItem env.fail db)
  | .updateItem id body => UpdateItem env.fail db id body
  | .deleteItem id => DeleteItem env.fail db id
  | .getAllSuppliers => (GetAllSuppliers env.fail db, db)
  | .getSupplier id => (GetSupplier env.fail db id, db)
  | .createSupplier body => withBody body db (CreateSupplier env.fail db)
  | .updateSupplier id body => UpdateSupplier env.fail db id body
  | .deleteSupplier id => DeleteSupplier env.fail db id
  | .getAllPurchases => (GetAllPurchases env.fail db, db)
  | .getPurchase id => (GetPurchase env.fail db id, db)
  | .createPurchase body => withBody body db (CreatePurchase env.fail env.now l.userID db)

/-- A route of the protected group: `AuthMiddleware` runs first; its panic is
recovered by the recover middleware and answered by `ErrorHandler`. -/
def protect {M : Type} (parse : String → Option TokenClaims) (authHeader : String)
    (db : DB M) (next : Locals → Response M × DB M) : Response M × DB M :=
  match (AuthMiddleware parse authHeader : Handled M) with
  | .respond r => (r, db)
  | .panic msg => (ErrorHandler msg, db)
  | .next l => next l

/-- One request served by the application. -/
def serve {M : Type} [Zero M] [Add M] [Mul M] [IntCast M] [LT M]
    [∀ a b : M, Decidable (a < b)] (env : Env) (db : DB M) :
    Request M → Response M × DB M
  | .health => (health, db)
  | .register body => withBody body db (Register env.fail env.hash db)
  | .login body =>
    withBody body db (fun req => (Login env.fail env.verify env.sign env.now db req, db))
  | .secured authHeader r => protect env.parse authHeader db (fun l => handle env l db r)

/-- The store after a sequence of requests served one after the other. -/
def run {M : Type} [Zero M] [Add M] [Mul M] [IntCast M] [LT M]
    [∀ a b : M, Decidable (a < b)] (db : DB M) : List (Env × Request M) → DB M
  | [] => db
  | (env, req) :: rest => run (serve env db req).2 rest

/-! ## Auxiliary definitions for the statements -/

/-- The store inside the transaction after the loop of `CreatePurchase` has
accepted the line `itemReq`, whose item it has loaded as `item`. -/
def afterLine {M : Type} [Mul M] [IntCast M] (purchaseID : Nat) (w : DB M)
    (itemReq : PurchaseItemRequest) (item : Item M) : DB M :=
  { w with
    details := w.details ++
      [{ ID := nextID (w.details.map (fun d => d.ID))
         PurchasingID := purchaseID
         ItemID := itemReq.ItemID
         Qty := itemReq.Qty
         SubTotal := item.Price * ((itemReq.Qty : Int) : M)
         Deleted := false }]
    items := updateStock w.items item.ID (item.Stock - itemReq.Qty) }

/-- The header `CreatePurchase` creates on the store `db`, with the given total. -/
def newHeader {M : Type} (now userID : Nat) (db : DB M) (req : CreatePurchaseRequest)
    (total : M) : Purchasing M :=
  { ID := nextID (db.purchasings.map (fun p => p.ID))
    Date := now
    SupplierID := req.SupplierID
    UserID := userID
    GrandTotal := total
    Deleted := false }

/-- A store with the supplier Acme and the item Bolt (stock 10, price 2.5). -/
def boltStore : DB ℚ :=
  { users := []
    suppliers := [⟨1, "Acme", "", "", false⟩]
    items := [⟨1, "Bolt", 10, 5 / 2, false⟩]
    purchasings := []
    details := [] }

/-- The quantity a request asks of the item `id`: the sum of `qty` over its
lines that name `id`. -/
def qtyOf (lines : List PurchaseItemRequest) (id : Nat) : Int :=
  ((lines.filter (fun l => l.ItemID == id)).map (fun l => l.Qty)).sum

/-- The item table with the stock of every row lowered by `q` of its key; key,
name, price and deletion mark are kept. -/
def deduct {M : Type} (rows : List (Item M)) (q : Nat → Int) : List (Item M) :=
  rows.map (fun r => { r with Stock := r.Stock - q r.ID })

/-- One call of `CreatePurchase`: its failing store calls, its time, its
authenticated user and its parsed body. -/
structure PurchaseCall where
  fail : Site → Bool
  now : Nat
  userID : Nat
  req : CreatePurchaseRequest

/-- Successive calls of `CreatePurchase` with no other write in between: the
status codes in order, and the final store. -/
def runPurchases {M : Type} [Zero M] [Add M] [Mul M] [IntCast M] (db : DB M) :
    List PurchaseCall → List Nat × DB M
  | [] => ([], db)
  | c :: cs =>
    let out := CreatePurchase c.fail c.now c.userID db c.req
    let r := runPurchases out.2 cs
    (out.1.status :: r.1, r.2)

/-- Every item row of the store has a stock that is not negative. -/
def StockNonneg {M : Type} (db : DB M) : Prop := ∀ it ∈ db.items, 0 ≤ it.Stock

/-- A purchase of 3 Bolts from Acme by user 1, with no failing store call. -/
def oneBolt : PurchaseCall := ⟨noFail, 0, 1, ⟨1, [⟨1, 3⟩]⟩⟩

/-- An environment in which no call fails and the token `t` is the valid token
of user 1. -/
def plainEnv : Env :=
  { fail := noFail
    now := 0
    hash := fun p => some p
    verify := fun h p => h == p
    sign := fun _ => some "t"
    parse := fun tok =>
      if tok = "t" then
        some (.mapClaims [("user_id", .num 1), ("username", .str "ann"), ("role", .str "user")])
      else none }

/-- The sum of the subtotals of the lines that belong to the order `id`: the
running sum over the lines in the order of their insertion, starting from `0`. -/
def lineSum {M : Type} [Zero M] [Add M] (db : DB M) (id : Nat) : M :=
  ((db.details.filter (fun d => d.PurchasingID == id)).map (fun d => d.SubTotal)).foldl
    (fun acc x => acc + x) 0

/-- The invariant of the orders: every line refers to a header key that has
been given out, and the grand total of every header is the sum of the subtotals
of its lines. -/
def OrderInv {M : Type} [Zero M] [Add M] (db : DB M) : Prop :=
  (∀ d ∈ db.details, d.PurchasingID < nextID (db.purchasings.map (fun p => p.ID))) ∧
    ∀ p ∈ db.purchasings, p.GrandTotal = lineSum db p.ID

/-- The request `req`, served on the store `db`, creates the line `d` and the
order it belongs to: neither is in `db`, both are in the store after it. -/
def CreatedBy {M : Type} [Zero M] [Add M] [Mul M] [IntCast M] [LT M]
    [∀ a b : M, Decidable (a < b)] (env : Env) (db : DB M) (req : Request M)
    (d : PurchasingDetail M) : Prop :=
  d ∉ db.details ∧ d ∈ (serve env db req).2.details ∧
    (∀ p ∈ db.purchasings, p.ID ≠ d.PurchasingID) ∧
    ∃ p ∈ (serve env db req).2.purchasings, p.ID = d.PurchasingID

/-- The keys of the item rows with their stock, in table order. -/
def stockView {M : Type} (db : DB M) : List (Nat × Int) :=
  db.items.map (fun it => (it.ID, it.Stock))

/-- The requests whose handler writes the `stock` column of an existing row:
purchase creation and item update. -/
def writesStock {M : Type} : Request M → Bool
  | .secured _ (.createPurchase _) => true
  | .secured _ (.updateItem _ _) => true
  | _ => false

/-- The oracle under which every store call fails. -/
def allFail : Site → Bool := fun _ => true

/-- A token library for which every token is validly signed and carries the
claims `username` and `role` but no `user_id`. -/
def claimlessParse : String → Option TokenClaims :=
  fun _ => some (.mapClaims [("username", .str "ann"), ("role", .str "user")])

/-- The primary keys of the item rows are distinct. -/
def DistinctKeys {M : Type} (db : DB M) : Prop := (db.items.map (fun r => r.ID)).Nodup

/-- A request sequence on the empty store: create the supplier Acme, create the
item Bolt (stock 10, price 3), buy 3 Bolts, then raise the price of Bolt to 4. -/
def endToEnd : List (Env × Request ℚ) :=
  [(plainEnv, .secured "Bearer t" (.createSupplier (some ⟨"Acme", "", ""⟩))),
   (plainEnv, .secured "Bearer t" (.createItem (some ⟨"Bolt", 10, 3⟩))),
   (plainEnv, .secured "Bearer t" (.createPurchase (some ⟨1, [⟨1, 3⟩]⟩))),
   (plainEnv, .secured "Bearer t" (.updateItem 1 (some ⟨"Bolt", 7, 4⟩)))]

/-- A store with the one user ann, whose stored password hash is the string
`secret1` (the witnesses take the hash of a password to be the password). -/
def annStore : DB ℚ :=
  { users := [⟨1, "ann", "secret1", "user", false⟩]
    suppliers := []
    items := []
    purchasings := []
    details := [] }

/-- The claims `Login` signs at time `now` (Unix seconds) for the user with this
key, name and role: `exp` is `time.Now().Add(time.Hour * 24).Unix()`. -/
def loginClaims (id : Nat) (username role : String) (now : Nat) : MapClaims :=
  [("user_id", .num id), ("username", .str username), ("role", .str role),
    ("exp", .num ((now + 24 * 3600 : Nat) : ℚ))]

/-- What the middleware relies on from the token library, for one token:
`jwt.Parse`, with the key function of the source, at time `t` (Unix seconds),
gives back the claims `SignedString` has signed into `tok` with the same secret
when `t` is before the second `exp`, and an error from the second `exp` on.
Times are whole Unix seconds: the expiry is a whole second, so an instant is
before it exactly when its Unix second is. -/
def ParsesIssued (parseAt : Nat → String → Option TokenClaims) (tok : String)
    (claims : MapClaims) (exp : Nat) : Prop :=
  ∀ t, parseAt t tok = if t < exp then some (.mapClaims claims) else none

/-- A token library for the witnesses: at time `t` the token `t` is the valid
token that ann got at time 0, until 24 hours have passed. -/
def dayParse : Nat → String → Option TokenClaims :=
  fun t tok =>
    if tok = "t" then
      if t < 24 * 3600 then some (.mapClaims (loginClaims 1 "ann" "user" 0)) else none
    else none

/-- The envelope of the API: the response has a boolean field `success`, no
field besides `success`, `message` and `data`, and `success` is true exactly
when the status code is 2xx. -/
def Envelope (r : Response M) : Prop :=
  r.other = [] ∧ ∃ b, r.success = some b ∧ (b = true ↔ 200 ≤ r.status ∧ r.status < 300)

/-- The requests to the item update route. -/
def isUpdateItem {M : Type} : Request M → Bool
  | .secured _ (.updateItem _ _) => true
  | _ => false

/-- The oracle under which the calls `First` fail and no other call does. -/
def lookupFails : Site → Bool := fun s => s == Site.first

/-! # Theorems -/

variable {M : Type}

/-! ## The store calls -/

theorem le_foldr_max {ids : List Nat} {x : Nat} (h : x ∈ ids) : x ≤ ids.foldr max 0 := by
  induction ids with
  | nil => cases h
  | cons a t ih =>
    rcases List.mem_cons.mp h with rfl | h
    · exact le_max_left _ _
    · exact le_trans (ih h) (le_max_right _ _)

theorem lt_nextID {ids : List Nat} {x : Nat} (h : x ∈ ids) : x < nextID ids :=
  Nat.lt_succ_of_le (le_foldr_max h)

theorem firstItem_some {rows : List (Item M)} {j : Nat} {it : Item M}
    (h : firstItem rows j = some it) : it ∈ rows ∧ it.ID = j ∧ it.Deleted = false := by
  unfold firstItem at h
  have h1 := List.find?_some h
  have h2 := List.mem_of_find?_eq_some h
  simp only [Bool.and_eq_true, beq_iff_eq, Bool.not_eq_true'] at h1
  exact ⟨h2, h1.1, h1.2⟩

theorem firstItem_updateStock (rows : List (Item M)) (id j : Nat) (v : Int) :
    firstItem (updateStock rows id v) j =
      (firstItem rows j).map
        (fun r => if r.ID == id && !r.Deleted then { r with Stock := v } else r) := by
  unfold firstItem updateStock
  rw [List.find?_map]
  congr 2
  funext r
  simp only [Function.comp]
  split <;> rfl

theorem priceOf_afterLine [Zero M] [Mul M] [IntCast M] (pid : Nat) (w : DB M)
    (l : PurchaseItemRequest) (item : Item M) (j : Nat) :
    priceOf (afterLine pid w l item) j = priceOf w j := by
  unfold priceOf afterLine
  simp only [firstItem_updateStock]
  cases firstItem w.items j with
  | none => rfl
  | some r =>
    simp only [Option.map]
    split <;> rfl

theorem isSome_firstItem_afterLine [Mul M] [IntCast M] (pid : Nat) (w : DB M)
    (l : PurchaseItemRequest) (item : Item M) (j : Nat) :
    (firstItem (afterLine pid w l item).items j).isSome = (firstItem w.items j).isSome := by
  unfold afterLine
  simp only [firstItem_updateStock]
  cases firstItem w.items j <;> rfl

/-! ## The loop of `CreatePurchase` -/

theorem processItems_cons_ok [Add M] [Mul M] [IntCast M] {fail : Site → Bool} {pid k : Nat}
    {l : PurchaseItemRequest} {rest : List PurchaseItemRequest} {g : M} {w : DB M}
    {res : M × DB M}
    (h : processItems fail pid k (l :: rest) g w = .ok res) :
    ∃ item, l.ItemID ≠ 0 ∧ 0 < l.Qty ∧ fail (.firstItem k) = false ∧
      firstItem w.items l.ItemID = some item ∧ l.Qty ≤ item.Stock ∧
      fail (.createDetail k) = false ∧ fail (.updateStock k) = false ∧
      processItems fail pid (k + 1) rest (g + item.Price * ((l.Qty : Int) : M))
        (afterLine pid w l item) = .ok res := by
  unfold processItems at h
  split at h
  · cases h
  · rename_i hv
    push_neg at hv
    split at h
    · cases h
    · rename_i item hit
      split at h
      · cases h
      · rename_i hst
        simp only [] at h
        split at h
        · cases h
        · split at h
          · cases h
          · rename_i hcd hus
            refine ⟨item, hv.1, hv.2, ?_, ?_, not_lt.mp hst, by simpa using hcd, by simpa using hus, h⟩
            · by_contra hf
              simp [hf] at hit
            · by_cases hf : fail (.firstItem k) = true
              · simp [hf] at hit
              · simpa [hf] using hit

theorem processItems_error_status [Add M] [Mul M] [IntCast M] (fail : Site → Bool) (pid : Nat)
    (lines : List PurchaseItemRequest) :
    ∀ (k : Nat) (g : M) (w : DB M) (r : Response M),
      processItems fail pid k lines g w = .error r →
      (r.status = 400 ∨ r.status = 500) ∧ r.success = some false := by
  induction lines with
  | nil => intro k g w r h; simp [processItems] at h
  | cons l rest ih =>
    intro k g w r h
    unfold processItems at h
    split at h
    · cases h; simp [failure]
    · split at h
      · cases h; simp [failure]
      · split at h
        · cases h; simp [failure]
        · simp only [] at h
          split at h
          · cases h; simp [failure]
          · split at h
            · cases h; simp [failure]
            · exact ih _ _ _ _ h

theorem processItems_ok_total [Zero M] [Add M] [Mul M] [IntCast M] (fail : Site → Bool)
    (pid : Nat) (lines : List PurchaseItemRequest) :
    ∀ (k : Nat) (g : M) (w : DB M) (res : M × DB M),
      processItems fail pid k lines g w = .ok res →
      res.1 = lines.foldl (fun acc l => acc + priceOf w l.ItemID * ((l.Qty : Int) : M)) g ∧
      res.2.purchasings = w.purchasings ∧ res.2.users = w.users ∧
      res.2.suppliers = w.suppliers ∧
      ∀ l ∈ lines, (firstItem w.items l.ItemID).isSome = true := by
  induction lines with
  | nil =>
    intro k g w res h
    simp only [processItems, Except.ok.injEq] at h
    subst h
    simp
  | cons l rest ih =>
    intro k g w res h
    obtain ⟨item, _, _, _, hit, _, _, _, hrest⟩ := processItems_cons_ok h
    obtain ⟨h1, h2, h3, h4, h5⟩ := ih _ _ _ _ hrest
    refine ⟨?_, ?_, ?_, ?_, ?_⟩
    · rw [h1, List.foldl_cons]
      have hp : priceOf w l.ItemID = item.Price := by simp [priceOf, hit]
      rw [hp]
      congr 1
      funext acc x
      rw [priceOf_afterLine]
    · rw [h2]; rfl
    · rw [h3]; rfl
    · rw [h4]; rfl
    · intro x hx
      rcases List.mem_cons.mp hx with rfl | hx
      · simp [hit]
      · rw [← isSome_firstItem_afterLine pid w l item]
        exact h5 x hx

theorem processItems_ok_stock [Add M] [Mul M] [IntCast M] (fail : Site → Bool)
    (pid : Nat) (lines : List PurchaseItemRequest) :
    ∀ (k : Nat) (g : M) (w : DB M) (res : M × DB M),
      processItems fail pid k lines g w = .ok res →
      ∀ l ∈ lines, ∀ it, firstItem w.items l.ItemID = some it → l.Qty ≤ it.Stock := by
  induction lines with
  | nil => intro k g w res _ l hl; cases hl
  | cons l rest ih =>
    intro k g w res h x hx it hxit
    obtain ⟨item, _, hq, _, hit, hst, _, _, hrest⟩ := processItems_cons_ok h
    rcases List.mem_cons.mp hx with rfl | hx
    · rw [hit] at hxit
      cases hxit
      exact hst
    · have hnext : firstItem (afterLine pid w l item).items x.ItemID =
          some (if it.ID == item.ID && !it.Deleted then
            { it with Stock := item.Stock - l.Qty } else it) := by
        unfold afterLine
        simp only [firstItem_updateStock, hxit, Option.map]
      have := ih _ _ _ _ hrest x hx _ hnext
      split at this
      · rename_i hc
        simp only [Bool.and_eq_true, beq_iff_eq] at hc
        have e1 := (firstItem_some hxit).2.1
        have e2 := (firstItem_some hit).2.1
        have : x.ItemID = l.ItemID := by rw [← e1, ← e2]; exact hc.1
        rw [this, hit] at hxit
        cases hxit
        simp only [] at *
        omega
      · exact this

theorem updateGrandTotal_append_new (rows : List (Purchasing M)) (p : Purchasing M) (g : M)
    (hid : p.ID = nextID (rows.map (fun r => r.ID))) (hd : p.Deleted = false) :
    updateGrandTotal (rows ++ [p]) p.ID g = rows ++ [{ p with GrandTotal := g }] := by
  unfold updateGrandTotal
  rw [List.map_append]
  congr 1
  · conv_rhs => rw [← List.map_id rows]
    apply List.map_congr_left
    intro r hr
    have : r.ID < p.ID := by
      rw [hid]; exact lt_nextID (List.mem_map_of_mem _ hr)
    have hne : (r.ID == p.ID) = false := by simpa using Nat.ne_of_lt this
    simp [hne]
  · simp [hd]

/-! ## `CreatePurchase` -/

theorem CreatePurchase_cases [Zero M] [Add M] [Mul M] [IntCast M] (fail : Site → Bool)
    (now userID : Nat) (db : DB M) (req : CreatePurchaseRequest) :
    (((CreatePurchase fail now userID db req).1.status = 400 ∨
        (CreatePurchase fail now userID db req).1.status = 500) ∧
      (CreatePurchase fail now userID db req).1.success = some false ∧
      (CreatePurchase fail now userID db req).2 = db) ∨
    ((CreatePurchase fail now userID db req).1.status = 201 ∧
      (CreatePurchase fail now userID db req).1.success = some true ∧
      req.SupplierID ≠ 0 ∧ req.Items ≠ [] ∧
      (∃ s, firstSupplier db.suppliers req.SupplierID = some s) ∧
      ∃ g w, processItems fail (newHeader now userID db req (0 : M)).ID 0 req.Items 0
          { db with purchasings := db.purchasings ++ [newHeader now userID db req 0] } = .ok (g, w) ∧
        (CreatePurchase fail now userID db req).2 =
          { w with purchasings :=
              updateGrandTotal w.purchasings (newHeader now userID db req (0 : M)).ID g }) := by
  unfold CreatePurchase
  split
  · left; simp [failure]
  · split
    · left; simp [failure]
    · split
      · left; simp [failure]
      · split
        · left; simp [failure]
        · simp only []
          split
          · left; simp [failure, Rollback, Begin]
          · split
            · rename_i r hr
              left
              have := processItems_error_status _ _ _ _ _ _ _ hr
              simpa [Rollback, Begin] using this
            · split
              · left; simp [failure, Rollback, Begin]
              · split
                · left; simp [failure, Begin]
                · rename_i h1 h2 _ s h3 _ _ _ g w h6 _ _
                  right
                  refine ⟨by simp [success], by simp [success], h1, ?_, ?_, g, w, ?_, ?_⟩
                  · intro hn; apply h2; simp [hn]
                  · by_cases hf : fail .first = true
                    · simp [hf] at h3
                    · exact ⟨s, by simpa [hf] using h3⟩
                  · simpa [Begin, newHeader] using h6
                  · simp [Commit, newHeader, Begin]


/-- C1: when `CreatePurchase` answers 201, the store has exactly one more order
header, the one created for the request, and its grand total is the running sum,
over the request lines in request order, of the price the store holds for the
line's item times the line's quantity; every line names a live item.  The total
is a function of the stored prices and of the `(item_id, qty)` pairs only: the
parsed request has no other field. -/
theorem createPurchase_grand_total [Zero M] [Add M] [Mul M] [IntCast M]
    (fail : Site → Bool) (now userID : Nat) (db : DB M) (req : CreatePurchaseRequest)
    (h : (CreatePurchase fail now userID db req).1.status = 201) :
    (CreatePurchase fail now userID db req).2.purchasings =
        db.purchasings ++ [newHeader now userID db req (requestTotal db req.Items)] ∧
      ∀ l ∈ req.Items, ∃ it, firstItem db.items l.ItemID = some it := by
  rcases CreatePurchase_cases fail now userID db req with ⟨hs, _⟩ | ⟨_, _, _, _, _, g, w, hp, hdb⟩
  · rw [h] at hs
    rcases hs with hs | hs <;> cases hs
  · obtain ⟨h1, h2, _, _, h5⟩ := processItems_ok_total _ _ _ _ _ _ _ hp
    constructor
    · rw [hdb]
      simp only [] at h1 h2 ⊢
      rw [h2, updateGrandTotal_append_new _ _ _ rfl rfl, h1]
      rfl
    · intro l hl
      have := h5 l hl
      exact Option.isSome_iff_exists.mp this

/-- C1, witness: item price 2.5 and one line of quantity 3 give the total 7.5. -/
theorem createPurchase_grand_total_witness :
    (CreatePurchase noFail 0 1 boltStore ⟨1, [⟨1, 3⟩]⟩).1.status = 201 ∧
      ((CreatePurchase noFail 0 1 boltStore ⟨1, [⟨1, 3⟩]⟩).2.purchasings =
          boltStore.purchasings ++
            [newHeader 0 1 boltStore ⟨1, [⟨1, 3⟩]⟩ (requestTotal boltStore [⟨1, 3⟩])] ∧
        ∀ l ∈ [(⟨1, 3⟩ : PurchaseItemRequest)], ∃ it, firstItem boltStore.items l.ItemID = some it) ∧
      requestTotal boltStore [⟨1, 3⟩] = 15 / 2 :=
  ⟨by decide, createPurchase_grand_total noFail 0 1 boltStore ⟨1, [⟨1, 3⟩]⟩ (by decide),
    by norm_num [requestTotal, priceOf, firstItem, boltStore]⟩

theorem CreatePurchase_failed [Zero M] [Add M] [Mul M] [IntCast M] (fail : Site → Bool)
    (now userID : Nat) (db : DB M) (req : CreatePurchaseRequest)
    (h : (CreatePurchase fail now userID db req).1.status ≠ 201) :
    (CreatePurchase fail now userID db req).2 = db := by
  rcases CreatePurchase_cases fail now userID db req with ⟨_, _, hdb⟩ | ⟨hs, _⟩
  · exact hdb
  · exact absurd hs h

/-- C2: `CreatePurchase` is atomic on failure.  Whatever the store, the request
and the failing store calls, when the response is not 201 the committed store is
the store before the request: no stock has changed and no header or line has
been added.  In particular a request with a line whose quantity exceeds the
stock of its item is answered with a status other than 201. -/
theorem createPurchase_atomic [Zero M] [Add M] [Mul M] [IntCast M]
    (fail : Site → Bool) (now userID : Nat) (db : DB M) (req : CreatePurchaseRequest) :
    ((CreatePurchase fail now userID db req).1.status ≠ 201 →
        (CreatePurchase fail now userID db req).2 = db) ∧
      ((∃ l ∈ req.Items, ∃ it, firstItem db.items l.ItemID = some it ∧ it.Stock < l.Qty) →
        (CreatePurchase fail now userID db req).1.status ≠ 201) := by
  refine ⟨CreatePurchase_failed fail now userID db req, ?_⟩
  rcases CreatePurchase_cases fail now userID db req with
    ⟨hs, _, _⟩ | ⟨_, _, _, _, _, g, w, hp, _⟩
  · intro _
    rcases hs with hs | hs <;> rw [hs] <;> decide
  · rintro ⟨l, hl, it, hit, hlt⟩
    have := processItems_ok_stock _ _ _ _ _ _ _ hp l hl it hit
    omega

/-- C2, witness: quantity 20 against stock 10 is answered 400 and the store,
with stock 10, stays as it was; so does a second line of 8 after a first line
of 3 on the same item. -/
theorem createPurchase_atomic_witness :
    ((CreatePurchase noFail 0 1 boltStore ⟨1, [⟨1, 20⟩]⟩).1.status = 400 ∧
      (CreatePurchase noFail 0 1 boltStore ⟨1, [⟨1, 20⟩]⟩).2 = boltStore ∧
      (firstItem boltStore.items 1).map (fun it => it.Stock) = some 10) ∧
    ((CreatePurchase noFail 0 1 boltStore ⟨1, [⟨1, 3⟩, ⟨1, 8⟩]⟩).1.status = 400 ∧
      (CreatePurchase noFail 0 1 boltStore ⟨1, [⟨1, 3⟩, ⟨1, 8⟩]⟩).2 = boltStore) :=
  ⟨⟨by decide, (createPurchase_atomic noFail 0 1 boltStore ⟨1, [⟨1, 20⟩]⟩).1 (by decide),
      by decide⟩,
    by decide, (createPurchase_atomic noFail 0 1 boltStore ⟨1, [⟨1, 3⟩, ⟨1, 8⟩]⟩).1 (by decide)⟩

/-! ## Stock after purchases -/

theorem qtyOf_cons (l : PurchaseItemRequest) (rest : List PurchaseItemRequest) (id : Nat) :
    qtyOf (l :: rest) id = (if l.ItemID = id then l.Qty else 0) + qtyOf rest id := by
  unfold qtyOf
  by_cases h : l.ItemID = id
  · simp [List.filter_cons, h]
  · simp [List.filter_cons, h]

theorem eq_of_nodup_ID {rows : List (Item M)} (hnd : (rows.map (fun r => r.ID)).Nodup)
    {a b : Item M} (ha : a ∈ rows) (hb : b ∈ rows) (h : a.ID = b.ID) : a = b :=
  List.inj_on_of_nodup_map hnd ha hb h

theorem updateStock_of_nodup {rows : List (Item M)}
    (hnd : (rows.map (fun r => r.ID)).Nodup) {j : Nat} {item : Item M}
    (hit : firstItem rows j = some item) (q : Int) :
    updateStock rows item.ID (item.Stock - q) =
      deduct rows (fun id => if j = id then q else 0) := by
  obtain ⟨hmem, hid, hlive⟩ := firstItem_some hit
  unfold updateStock deduct
  apply List.map_congr_left
  intro r hr
  by_cases h : r.ID = item.ID
  · have : r = item := eq_of_nodup_ID hnd hr hmem h
    subst this
    simp [hlive, hid]
  · have h2 : ¬ j = r.ID := fun e => h (by rw [hid, e])
    simp [h, h2]

theorem map_ID_updateStock (rows : List (Item M)) (id : Nat) (v : Int) :
    (updateStock rows id v).map (fun r => r.ID) = rows.map (fun r => r.ID) := by
  unfold updateStock
  rw [List.map_map]
  apply List.map_congr_left
  intro r _
  simp only [Function.comp]
  split <;> rfl

theorem processItems_ok_items [Add M] [Mul M] [IntCast M] (fail : Site → Bool)
    (pid : Nat) (lines : List PurchaseItemRequest) :
    ∀ (k : Nat) (g : M) (w : DB M) (res : M × DB M),
      (w.items.map (fun r => r.ID)).Nodup →
      processItems fail pid k lines g w = .ok res →
      res.2.items = deduct w.items (qtyOf lines) := by
  induction lines with
  | nil =>
    intro k g w res _ h
    simp only [processItems, Except.ok.injEq] at h
    subst h
    simp [deduct, qtyOf]
  | cons l rest ih =>
    intro k g w res hnd h
    obtain ⟨item, _, _, _, hit, _, _, _, hrest⟩ := processItems_cons_ok h
    have hnd2 : ((afterLine pid w l item).items.map (fun r => r.ID)).Nodup := by
      simp only [afterLine, map_ID_updateStock]
      exact hnd
    rw [ih _ _ _ _ hnd2 hrest]
    simp only [afterLine]
    rw [updateStock_of_nodup hnd hit]
    unfold deduct
    rw [List.map_map]
    apply List.map_congr_left
    intro r _
    simp only [Function.comp, qtyOf_cons]
    congr 1
    omega

theorem map_ID_deduct (rows : List (Item M)) (q : Nat → Int) :
    (deduct rows q).map (fun r => r.ID) = rows.map (fun r => r.ID) := by
  unfold deduct
  rw [List.map_map]
  rfl

theorem deduct_deduct (rows : List (Item M)) (q1 q2 : Nat → Int) :
    deduct (deduct rows q1) q2 = deduct rows (fun id => q1 id + q2 id) := by
  unfold deduct
  rw [List.map_map]
  apply List.map_congr_left
  intro r _
  simp only [Function.comp]
  congr 1
  omega

theorem CreatePurchase_items [Zero M] [Add M] [Mul M] [IntCast M] (fail : Site → Bool)
    (now userID : Nat) (db : DB M) (req : CreatePurchaseRequest)
    (hnd : (db.items.map (fun r => r.ID)).Nodup)
    (h : (CreatePurchase fail now userID db req).1.status = 201) :
    (CreatePurchase fail now userID db req).2.items = deduct db.items (qtyOf req.Items) := by
  rcases CreatePurchase_cases fail now userID db req with
    ⟨hs, _⟩ | ⟨_, _, _, _, _, g, w, hp, hdb⟩
  · rw [h] at hs
    rcases hs with hs | hs <;> cases hs
  · rw [hdb]
    have hnd0 : ((({ db with purchasings := db.purchasings ++ [newHeader now userID db req 0] } :
        DB M)).items.map (fun r => r.ID)).Nodup := hnd
    exact processItems_ok_items _ _ _ _ _ _ _ hnd0 hp

/-- C3: after successive calls of `CreatePurchase` that all answer 201, with no
other write in between, on a store whose item keys are distinct, the item table
is the initial one with the stock of every row lowered by the sum, over all the
calls and all their lines naming the row's item, of the requested quantities.
Rows that no line names keep their stock; key, name, price and deletion mark of
every row are unchanged.  For one call this is the effect of one successful
purchase. -/
theorem purchases_stock [Zero M] [Add M] [Mul M] [IntCast M] (calls : List PurchaseCall) :
    ∀ db : DB M, (db.items.map (fun r => r.ID)).Nodup →
      (∀ s ∈ (runPurchases db calls).1, s = 201) →
      (runPurchases db calls).2.items =
        deduct db.items (fun id => (calls.map (fun c => qtyOf c.req.Items id)).sum) := by
  induction calls with
  | nil =>
    intro db _ _
    simp [runPurchases, deduct]
  | cons c cs ih =>
    intro db hnd hall
    simp only [runPurchases, List.mem_cons, forall_eq_or_imp] at hall ⊢
    have h1 := CreatePurchase_items c.fail c.now c.userID db c.req hnd hall.1
    have hnd2 : ((CreatePurchase c.fail c.now c.userID db c.req).2.items.map
        (fun r => r.ID)).Nodup := by
      rw [h1, map_ID_deduct]; exact hnd
    rw [ih _ hnd2 hall.2, h1, deduct_deduct]
    simp

/-- C3, witness: stock 10 and one purchase of quantity 3 leave stock 7. -/
theorem purchases_stock_witness :
    (boltStore.items.map (fun r => r.ID)).Nodup ∧
      (∀ s ∈ (runPurchases boltStore [oneBolt]).1, s = 201) ∧
      (runPurchases boltStore [oneBolt]).2.items =
        deduct boltStore.items (fun id => ([oneBolt].map (fun c => qtyOf c.req.Items id)).sum) ∧
      (firstItem boltStore.items 1).map (fun it => it.Stock) = some 10 ∧
      (firstItem (runPurchases boltStore [oneBolt]).2.items 1).map (fun it => it.Stock) = some 7 :=
  ⟨by decide, by decide,
    purchases_stock [oneBolt] boltStore (by decide) (by decide), by decide, by decide⟩

/-! ## Stock is never negative -/

theorem processItems_ok_nonneg [Add M] [Mul M] [IntCast M] (fail : Site → Bool)
    (pid : Nat) (lines : List PurchaseItemRequest) :
    ∀ (k : Nat) (g : M) (w : DB M) (res : M × DB M),
      StockNonneg w → processItems fail pid k lines g w = .ok res → StockNonneg res.2 := by
  induction lines with
  | nil =>
    intro k g w res hw h
    simp only [processItems, Except.ok.injEq] at h
    subst h
    exact hw
  | cons l rest ih =>
    intro k g w res hw h
    obtain ⟨item, _, _, _, _, hst, _, _, hrest⟩ := processItems_cons_ok h
    refine ih _ _ _ _ ?_ hrest
    intro it hit
    simp only [afterLine, updateStock, List.mem_map] at hit
    obtain ⟨r, hr, rfl⟩ := hit
    split
    · simp only []; omega
    · exact hw r hr

theorem CreatePurchase_nonneg [Zero M] [Add M] [Mul M] [IntCast M] (fail : Site → Bool)
    (now userID : Nat) (db : DB M) (req : CreatePurchaseRequest) (hdb : StockNonneg db) :
    StockNonneg (CreatePurchase fail now userID db req).2 := by
  rcases CreatePurchase_cases fail now userID db req with
    ⟨_, _, h⟩ | ⟨_, _, _, _, _, g, w, hp, h⟩
  · rw [h]; exact hdb
  · rw [h]
    have hw0 : StockNonneg
        { db with purchasings := db.purchasings ++ [newHeader now userID db req 0] } := hdb
    exact processItems_ok_nonneg _ _ _ _ _ _ _ hw0 hp

theorem CreateItem_nonneg [Zero M] [LT M] [∀ a b : M, Decidable (a < b)] (fail : Site → Bool)
    (db : DB M) (req : CreateItemRequest M) (hdb : StockNonneg db) :
    StockNonneg (CreateItem fail db req).2 := by
  unfold CreateItem
  split
  · exact hdb
  · split
    · exact hdb
    · split
      · exact hdb
      · simp only []
        split
        · exact hdb
        · rename_i hs _
          intro it hit
          simp only [List.mem_append, List.mem_singleton] at hit
          rcases hit with hit | rfl
          · exact hdb it hit
          · simpa using hs

theorem UpdateItem_nonneg [Zero M] [LT M] [∀ a b : M, Decidable (a < b)] (fail : Site → Bool)
    (db : DB M) (id : Nat) (body : Option (UpdateItemRequest M)) (hdb : StockNonneg db) :
    StockNonneg (UpdateItem fail db id body).2 := by
  unfold UpdateItem
  split
  · exact hdb
  · split
    · exact hdb
    · split
      · exact hdb
      · split
        · exact hdb
        · split
          · exact hdb
          · simp only []
            split
            · exact hdb
            · rename_i hs _
              intro it hit
              simp only [saveItem, List.mem_map] at hit
              obtain ⟨r, hr, rfl⟩ := hit
              split
              · simpa using hs
              · exact hdb r hr

theorem DeleteItem_nonneg (fail : Site → Bool) (db : DB M) (id : Nat) (hdb : StockNonneg db) :
    StockNonneg (DeleteItem fail db id).2 := by
  unfold DeleteItem
  split
  · exact hdb
  · split
    · exact hdb
    · intro it hit
      simp only [deleteItem, List.mem_map] at hit
      obtain ⟨r, hr, rfl⟩ := hit
      split
      · exact hdb r hr
      · exact hdb r hr

theorem CreateSupplier_items (fail : Site → Bool) (db : DB M) (req : CreateSupplierRequest) :
    (CreateSupplier fail db req).2.items = db.items := by
  unfold CreateSupplier
  split
  · rfl
  · simp only []
    split <;> rfl

theorem UpdateSupplier_items (fail : Site → Bool) (db : DB M) (id : Nat)
    (body : Option UpdateSupplierRequest) :
    (UpdateSupplier fail db id body).2.items = db.items := by
  unfold UpdateSupplier
  split
  · rfl
  · split
    · rfl
    · split
      · rfl
      · simp only []
        split <;> rfl

theorem DeleteSupplier_items (fail : Site → Bool) (db : DB M) (id : Nat) :
    (DeleteSupplier fail db id).2.items = db.items := by
  unfold DeleteSupplier
  split
  · rfl
  · split <;> rfl

theorem Register_items (fail : Site → Bool) (hash : String → Option String) (db : DB M)
    (req : RegisterRequest) : (Register fail hash db req).2.items = db.items := by
  unfold Register
  repeat' split
  all_goals rfl

theorem handle_nonneg [Zero M] [Add M] [Mul M] [IntCast M] [LT M]
    [∀ a b : M, Decidable (a < b)] (env : Env) (l : Locals) (db : DB M)
    (r : ProtectedRequest M) (hdb : StockNonneg db) : StockNonneg (handle env l db r).2 := by
  cases r with
  | createItem body =>
    cases body with
    | none => exact hdb
    | some req => exact CreateItem_nonneg _ _ _ hdb
  | updateItem id body => exact UpdateItem_nonneg _ _ _ _ hdb
  | deleteItem id => exact DeleteItem_nonneg _ _ _ hdb
  | createSupplier body =>
    cases body with
    | none => exact hdb
    | some req =>
      intro it hit
      simp only [handle, withBody] at hit
      rw [CreateSupplier_items] at hit
      exact hdb it hit
  | updateSupplier id body =>
    intro it hit
    simp only [handle] at hit
    rw [UpdateSupplier_items] at hit
    exact hdb it hit
  | deleteSupplier id =>
    intro it hit
    simp only [handle] at hit
    rw [DeleteSupplier_items] at hit
    exact hdb it hit
  | createPurchase body =>
    cases body with
    | none => exact hdb
    | some req => exact CreatePurchase_nonneg _ _ _ _ _ hdb
  | _ => exact hdb

theorem serve_nonneg [Zero M] [Add M] [Mul M] [IntCast M] [LT M]
    [∀ a b : M, Decidable (a < b)] (env : Env) (db : DB M) (req : Request M)
    (hdb : StockNonneg db) : StockNonneg (serve env db req).2 := by
  cases req with
  | health => exact hdb
  | register body =>
    cases body with
    | none => exact hdb
    | some req =>
      intro it hit
      simp only [serve, withBody] at hit
      rw [Register_items] at hit
      exact hdb it hit
  | login body =>
    cases body with
    | none => exact hdb
    | some req => exact hdb
  | secured authHeader r =>
    simp only [serve, protect]
    split
    · exact hdb
    · exact hdb
    · exact handle_nonneg _ _ _ _ hdb

/-- C4: item stock never goes negative.  From a store in which every item row
has a stock that is not negative, after any finite sequence of requests served
one after the other (any route, any body, any failing store call, successful or
not), every item row has a stock that is not negative. -/
theorem stock_never_negative [Zero M] [Add M] [Mul M] [IntCast M] [LT M]
    [∀ a b : M, Decidable (a < b)] (trace : List (Env × Request M)) :
    ∀ db : DB M, (∀ it ∈ db.items, 0 ≤ it.Stock) → ∀ it ∈ (run db trace).items, 0 ≤ it.Stock := by
  induction trace with
  | nil => intro db h; exact h
  | cons a rest ih =>
    intro db h
    obtain ⟨env, req⟩ := a
    exact ih _ (serve_nonneg env db req h)

/-- C4, witness: the Bolt store after an item update, a purchase and a purchase
that fails. -/
theorem stock_never_negative_witness :
    (∀ it ∈ boltStore.items, 0 ≤ it.Stock) ∧
      ∀ it ∈ (run boltStore
          [(plainEnv, .secured "Bearer t" (.updateItem 1 (some ⟨"Bolt", 4, 3⟩))),
           (plainEnv, .secured "Bearer t" (.createPurchase (some ⟨1, [⟨1, 4⟩]⟩))),
           (plainEnv, .secured "Bearer t" (.createPurchase (some ⟨1, [⟨1, 1⟩]⟩)))]).items,
        0 ≤ it.Stock :=
  ⟨by decide, stock_never_negative _ boltStore (by decide)⟩

/-! ## The item keys stay distinct

The hypothesis of distinct item keys holds in every store the application can
reach from the empty store. -/

theorem CreateItem_keys [Zero M] [LT M] [∀ a b : M, Decidable (a < b)] (fail : Site → Bool)
    (db : DB M) (req : CreateItemRequest M) (h : DistinctKeys db) :
    DistinctKeys (CreateItem fail db req).2 := by
  unfold CreateItem
  repeat' split
  all_goals first
    | exact h
    | (unfold DistinctKeys at h ⊢
       simp only [List.map_append, List.map_cons, List.map_nil]
       rw [List.nodup_append]
       refine ⟨h, List.nodup_singleton _, ?_⟩
       intro a ha hb
       simp only [List.mem_singleton] at hb
       have := lt_nextID ha
       omega)

theorem UpdateItem_keys [Zero M] [LT M] [∀ a b : M, Decidable (a < b)] (fail : Site → Bool)
    (db : DB M) (id : Nat) (body : Option (UpdateItemRequest M)) :
    (UpdateItem fail db id body).2.items.map (fun r => r.ID) =
      db.items.map (fun r => r.ID) := by
  unfold UpdateItem
  repeat' split
  all_goals first
    | rfl
    | (simp only [saveItem, List.map_map]
       apply List.map_congr_left
       intro r _
       simp only [Function.comp]
       split
       · rename_i hc
         simp only [Bool.and_eq_true, beq_iff_eq] at hc
         exact hc.1.symm
       · rfl)

theorem DeleteItem_keys (fail : Site → Bool) (db : DB M) (id : Nat) :
    (DeleteItem fail db id).2.items.map (fun r => r.ID) = db.items.map (fun r => r.ID) := by
  unfold DeleteItem
  repeat' split
  all_goals first
    | rfl
    | (simp only [deleteItem, List.map_map]
       apply List.map_congr_left
       intro r _
       simp only [Function.comp]
       split <;> rfl)

theorem CreatePurchase_keys [Zero M] [Add M] [Mul M] [IntCast M] (fail : Site → Bool)
    (now userID : Nat) (db : DB M) (req : CreatePurchaseRequest) (h : DistinctKeys db) :
    DistinctKeys (CreatePurchase fail now userID db req).2 := by
  by_cases hs : (CreatePurchase fail now userID db req).1.status = 201
  · unfold DistinctKeys
    rw [CreatePurchase_items fail now userID db req h hs, map_ID_deduct]
    exact h
  · rw [CreatePurchase_failed fail now userID db req hs]
    exact h

theorem serve_keys [Zero M] [Add M] [Mul M] [IntCast M] [LT M]
    [∀ a b : M, Decidable (a < b)] (env : Env) (db : DB M) (req : Request M)
    (h : DistinctKeys db) : DistinctKeys (serve env db req).2 := by
  cases req with
  | health => exact h
  | register body =>
    cases body with
    | none => exact h
    | some r =>
      unfold DistinctKeys
      simp only [serve, withBody]
      rw [Register_items]
      exact h
  | login body =>
    cases body with
    | none => exact h
    | some r => exact h
  | secured authHeader r =>
    simp only [serve, protect]
    split
    · exact h
    · exact h
    · cases r with
      | createItem body =>
        cases body with
        | none => exact h
        | some r => exact CreateItem_keys _ _ _ h
      | updateItem id body =>
        unfold DistinctKeys
        simp only [handle]
        rw [UpdateItem_keys]
        exact h
      | deleteItem id =>
        unfold DistinctKeys
        simp only [handle]
        rw [DeleteItem_keys]
        exact h
      | createSupplier body =>
        cases body with
        | none => exact h
        | some r =>
          unfold DistinctKeys
          simp only [handle, withBody]
          rw [CreateSupplier_items]
          exact h
      | updateSupplier id body =>
        unfold DistinctKeys
        simp only [handle]
        rw [UpdateSupplier_items]
        exact h
      | deleteSupplier id =>
        unfold DistinctKeys
        simp only [handle]
        rw [DeleteSupplier_items]
        exact h
      | createPurchase body =>
        cases body with
        | none => exact h
        | some r => exact CreatePurchase_keys _ _ _ _ _ h
      | _ => exact h

/-- The item keys are distinct in every store reached from the empty store. -/
theorem run_keys [Zero M] [Add M] [Mul M] [IntCast M] [LT M]
    [∀ a b : M, Decidable (a < b)] (trace : List (Env × Request M)) :
    ∀ db : DB M, DistinctKeys db → DistinctKeys (run db trace) := by
  induction trace with
  | nil => intro db h; exact h
  | cons a rest ih =>
    intro db h
    obtain ⟨env, req⟩ := a
    exact ih _ (serve_keys env db req h)

theorem run_empty_keys [Zero M] [Add M] [Mul M] [IntCast M] [LT M]
    [∀ a b : M, Decidable (a < b)] (trace : List (Env × Request M)) :
    ((run (DB.empty : DB M) trace).items.map (fun r => r.ID)).Nodup :=
  run_keys trace _ (by simp [DistinctKeys, DB.empty])

/-! ## The orders -/

theorem processItems_ok_details [Zero M] [Add M] [Mul M] [IntCast M] (fail : Site → Bool)
    (pid : Nat) (lines : List PurchaseItemRequest) :
    ∀ (k : Nat) (g : M) (w : DB M) (res : M × DB M),
      processItems fail pid k lines g w = .ok res →
      ∃ news : List (PurchasingDetail M),
        res.2.details = w.details ++ news ∧
        res.1 = (news.map (fun d => d.SubTotal)).foldl (fun acc x => acc + x) g ∧
        news.map (fun d => (d.ItemID, d.Qty)) = lines.map (fun l => (l.ItemID, l.Qty)) ∧
        ∀ d ∈ news, d.PurchasingID = pid ∧ d.Deleted = false ∧
          d.SubTotal = priceOf w d.ItemID * ((d.Qty : Int) : M) := by
  induction lines with
  | nil =>
    intro k g w res h
    simp only [processItems, Except.ok.injEq] at h
    subst h
    exact ⟨[], by simp⟩
  | cons l rest ih =>
    intro k g w res h
    obtain ⟨item, _, _, _, hit, _, _, _, hrest⟩ := processItems_cons_ok h
    obtain ⟨news, h1, h2, h3, h4⟩ := ih _ _ _ _ hrest
    have hp : priceOf w l.ItemID = item.Price := by simp [priceOf, hit]
    refine ⟨{ ID := nextID (w.details.map (fun d => d.ID))
              PurchasingID := pid
              ItemID := l.ItemID
              Qty := l.Qty
              SubTotal := item.Price * ((l.Qty : Int) : M)
              Deleted := false } :: news, ?_, ?_, ?_, ?_⟩
    · rw [h1]
      simp only [afterLine, List.append_assoc, List.singleton_append]
    · rw [h2]
      simp only [List.map_cons, List.foldl_cons]
    · simp only [List.map_cons, h3]
    · intro d hd
      rcases List.mem_cons.mp hd with rfl | hd
      · exact ⟨rfl, rfl, by rw [hp]⟩
      · obtain ⟨a, b, c⟩ := h4 d hd
        exact ⟨a, b, by rw [c, priceOf_afterLine]⟩

theorem nextID_append_lt (ids : List Nat) : nextID ids < nextID (ids ++ [nextID ids]) :=
  lt_nextID (by simp)

theorem lineSum_congr [Zero M] [Add M] {db db2 : DB M} (h : db2.details = db.details) (id : Nat) :
    lineSum db2 id = lineSum db id := by
  unfold lineSum; rw [h]

theorem OrderInv_congr [Zero M] [Add M] {db db2 : DB M} (hp : db2.purchasings = db.purchasings)
    (hd : db2.details = db.details) (h : OrderInv db) : OrderInv db2 := by
  unfold OrderInv at *
  rw [hp, hd]
  refine ⟨h.1, fun p hpm => ?_⟩
  rw [lineSum_congr hd]
  exact h.2 p hpm

theorem CreatePurchase_orders [Zero M] [Add M] [Mul M] [IntCast M] (fail : Site → Bool)
    (now userID : Nat) (db : DB M) (req : CreatePurchaseRequest) :
    (CreatePurchase fail now userID db req).2 = db ∨
    ∃ (g : M) (news : List (PurchasingDetail M)),
      (CreatePurchase fail now userID db req).1.status = 201 ∧
      (CreatePurchase fail now userID db req).2.purchasings =
        db.purchasings ++ [newHeader now userID db req g] ∧
      (CreatePurchase fail now userID db req).2.details = db.details ++ news ∧
      g = (news.map (fun d => d.SubTotal)).foldl (fun acc x => acc + x) 0 ∧
      news.map (fun d => (d.ItemID, d.Qty)) = req.Items.map (fun l => (l.ItemID, l.Qty)) ∧
      ∀ d ∈ news, d.PurchasingID = nextID (db.purchasings.map (fun p => p.ID)) ∧
        d.Deleted = false ∧ d.SubTotal = priceOf db d.ItemID * ((d.Qty : Int) : M) := by
  rcases CreatePurchase_cases fail now userID db req with
    ⟨_, _, h⟩ | ⟨hs, _, _, _, _, g, w, hp, h⟩
  · exact Or.inl h
  · right
    obtain ⟨news, h1, h2, h3, h4⟩ := processItems_ok_details _ _ _ _ _ _ _ hp
    obtain ⟨_, h5, _⟩ := processItems_ok_total _ _ _ _ _ _ _ hp
    refine ⟨g, news, hs, ?_, ?_, h2, h3, h4⟩
    · rw [h]
      simp only [] at h5 ⊢
      rw [h5, updateGrandTotal_append_new _ _ _ rfl rfl]
      rfl
    · rw [h]; exact h1

theorem CreatePurchase_orderInv [Zero M] [Add M] [Mul M] [IntCast M] (fail : Site → Bool)
    (now userID : Nat) (db : DB M) (req : CreatePurchaseRequest) (hinv : OrderInv db) :
    OrderInv (CreatePurchase fail now userID db req).2 := by
  rcases CreatePurchase_orders fail now userID db req with h | ⟨g, news, _, hp, hd, hg, _, hn⟩
  · rw [h]; exact hinv
  · unfold OrderInv
    rw [hp, hd]
    have hlt := nextID_append_lt (db.purchasings.map (fun p => p.ID))
    constructor
    · intro d hdm
      simp only [List.map_append, List.map_cons, List.map_nil, newHeader]
      rcases List.mem_append.mp hdm with hdm | hdm
      · exact lt_trans (hinv.1 d hdm) hlt
      · rw [(hn d hdm).1]; exact hlt
    · intro p hpm
      unfold lineSum
      rw [hd, List.filter_append]
      rcases List.mem_append.mp hpm with hpm | hpm
      · have hne : news.filter (fun d => d.PurchasingID == p.ID) = [] := by
          rw [List.filter_eq_nil_iff]
          intro d hdm
          have := lt_nextID (List.mem_map_of_mem (fun p => p.ID) hpm)
          rw [(hn d hdm).1]
          simpa using Nat.ne_of_gt this
        rw [hne, List.append_nil]
        exact hinv.2 p hpm
      · simp only [List.mem_singleton] at hpm
        subst hpm
        have hold : db.details.filter
            (fun d => d.PurchasingID == (newHeader now userID db req g).ID) = [] := by
          rw [List.filter_eq_nil_iff]
          intro d hdm
          have := hinv.1 d hdm
          simpa [newHeader] using Nat.ne_of_lt this
        have hnew : news.filter
            (fun d => d.PurchasingID == (newHeader now userID db req g).ID) = news := by
          rw [List.filter_eq_self]
          intro d hdm
          simp [newHeader, (hn d hdm).1]
        rw [hold, hnew, List.nil_append]
        exact hg

theorem CreateItem_orders [Zero M] [LT M] [∀ a b : M, Decidable (a < b)] (fail : Site → Bool)
    (db : DB M) (req : CreateItemRequest M) :
    (CreateItem fail db req).2.purchasings = db.purchasings ∧
      (CreateItem fail db req).2.details = db.details := by
  unfold CreateItem
  repeat' split
  all_goals exact ⟨rfl, rfl⟩

theorem UpdateItem_orders [Zero M] [LT M] [∀ a b : M, Decidable (a < b)] (fail : Site → Bool)
    (db : DB M) (id : Nat) (body : Option (UpdateItemRequest M)) :
    (UpdateItem fail db id body).2.purchasings = db.purchasings ∧
      (UpdateItem fail db id body).2.details = db.details := by
  unfold UpdateItem
  repeat' split
  all_goals exact ⟨rfl, rfl⟩

theorem DeleteItem_orders (fail : Site → Bool) (db : DB M) (id : Nat) :
    (DeleteItem fail db id).2.purchasings = db.purchasings ∧
      (DeleteItem fail db id).2.details = db.details := by
  unfold DeleteItem
  repeat' split
  all_goals exact ⟨rfl, rfl⟩

theorem CreateSupplier_orders (fail : Site → Bool) (db : DB M) (req : CreateSupplierRequest) :
    (CreateSupplier fail db req).2.purchasings = db.purchasings ∧
      (CreateSupplier fail db req).2.details = db.details := by
  unfold CreateSupplier
  repeat' split
  all_goals exact ⟨rfl, rfl⟩

theorem UpdateSupplier_orders (fail : Site → Bool) (db : DB M) (id : Nat)
    (body : Option UpdateSupplierRequest) :
    (UpdateSupplier fail db id body).2.purchasings = db.purchasings ∧
      (UpdateSupplier fail db id body).2.details = db.details := by
  unfold UpdateSupplier
  repeat' split
  all_goals exact ⟨rfl, rfl⟩

theorem DeleteSupplier_orders (fail : Site → Bool) (db : DB M) (id : Nat) :
    (DeleteSupplier fail db id).2.purchasings = db.purchasings ∧
      (DeleteSupplier fail db id).2.details = db.details := by
  unfold DeleteSupplier
  repeat' split
  all_goals exact ⟨rfl, rfl⟩

theorem Register_orders (fail : Site → Bool) (hash : String → Option String) (db : DB M)
    (req : RegisterRequest) :
    (Register fail hash db req).2.purchasings = db.purchasings ∧
      (Register fail hash db req).2.details = db.details := by
  unfold Register
  repeat' split
  all_goals exact ⟨rfl, rfl⟩

/-- What a served request does to the orders: nothing, or it is a purchase
creation answered 201 and the store gains the header and the lines. -/
theorem serve_orders [Zero M] [Add M] [Mul M] [IntCast M] [LT M]
    [∀ a b : M, Decidable (a < b)] (env : Env) (db : DB M) (req : Request M) :
    ((serve env db req).2.purchasings = db.purchasings ∧
      (serve env db req).2.details = db.details) ∨
    ∃ (now userID : Nat) (body : CreatePurchaseRequest) (g : M)
      (news : List (PurchasingDetail M)),
      (serve env db req).2.purchasings = db.purchasings ++ [newHeader now userID db body g] ∧
      (serve env db req).2.details = db.details ++ news ∧
      g = (news.map (fun d => d.SubTotal)).foldl (fun acc x => acc + x) 0 ∧
      ∀ d ∈ news, d.PurchasingID = nextID (db.purchasings.map (fun p => p.ID)) ∧
        d.Deleted = false ∧ d.SubTotal = priceOf db d.ItemID * ((d.Qty : Int) : M) := by
  cases req with
  | health => exact Or.inl ⟨rfl, rfl⟩
  | register body =>
    cases body with
    | none => exact Or.inl ⟨rfl, rfl⟩
    | some r => exact Or.inl (Register_orders _ _ _ _)
  | login body =>
    cases body with
    | none => exact Or.inl ⟨rfl, rfl⟩
    | some r => exact Or.inl ⟨rfl, rfl⟩
  | secured authHeader r =>
    simp only [serve, protect]
    split
    · exact Or.inl ⟨rfl, rfl⟩
    · exact Or.inl ⟨rfl, rfl⟩
    · rename_i l _
      cases r with
      | createItem body =>
        cases body with
        | none => exact Or.inl ⟨rfl, rfl⟩
        | some r => exact Or.inl (CreateItem_orders _ _ _)
      | updateItem id body => exact Or.inl (UpdateItem_orders _ _ _ _)
      | deleteItem id => exact Or.inl (DeleteItem_orders _ _ _)
      | createSupplier body =>
        cases body with
        | none => exact Or.inl ⟨rfl, rfl⟩
        | some r => exact Or.inl (CreateSupplier_orders _ _ _)
      | updateSupplier id body => exact Or.inl (UpdateSupplier_orders _ _ _ _)
      | deleteSupplier id => exact Or.inl (DeleteSupplier_orders _ _ _)
      | createPurchase body =>
        cases body with
        | none => exact Or.inl ⟨rfl, rfl⟩
        | some r =>
          rcases CreatePurchase_orders env.fail env.now l.userID db r with
            h | ⟨g, news, _, hp, hd, hg, _, hn⟩
          · left
            simp only [handle, withBody]
            rw [h]
            exact ⟨rfl, rfl⟩
          · exact Or.inr ⟨env.now, l.userID, r, g, news, hp, hd, hg, hn⟩
      | _ => exact Or.inl ⟨rfl, rfl⟩

theorem serve_orderInv [Zero M] [Add M] [Mul M] [IntCast M] [LT M]
    [∀ a b : M, Decidable (a < b)] (env : Env) (db : DB M) (req : Request M)
    (hinv : OrderInv db) : OrderInv (serve env db req).2 := by
  cases req with
  | health => exact hinv
  | register body =>
    cases body with
    | none => exact hinv
    | some r => exact OrderInv_congr (Register_orders _ _ _ _).1 (Register_orders _ _ _ _).2 hinv
  | login body =>
    cases body with
    | none => exact hinv
    | some r => exact hinv
  | secured authHeader r =>
    simp only [serve, protect]
    split
    · exact hinv
    · exact hinv
    · rename_i l _
      cases r with
      | createItem body =>
        cases body with
        | none => exact hinv
        | some r =>
          exact OrderInv_congr (CreateItem_orders _ _ _).1 (CreateItem_orders _ _ _).2 hinv
      | updateItem id body =>
        exact OrderInv_congr (UpdateItem_orders _ _ _ _).1 (UpdateItem_orders _ _ _ _).2 hinv
      | deleteItem id =>
        exact OrderInv_congr (DeleteItem_orders _ _ _).1 (DeleteItem_orders _ _ _).2 hinv
      | createSupplier body =>
        cases body with
        | none => exact hinv
        | some r =>
          exact OrderInv_congr (CreateSupplier_orders _ _ _).1 (CreateSupplier_orders _ _ _).2 hinv
      | updateSupplier id body =>
        exact OrderInv_congr (UpdateSupplier_orders _ _ _ _).1
          (UpdateSupplier_orders _ _ _ _).2 hinv
      | deleteSupplier id =>
        exact OrderInv_congr (DeleteSupplier_orders _ _ _).1 (DeleteSupplier_orders _ _ _).2 hinv
      | createPurchase body =>
        cases body with
        | none => exact hinv
        | some r => exact CreatePurchase_orderInv _ _ _ _ _ hinv
      | _ => exact hinv

theorem run_orderInv [Zero M] [Add M] [Mul M] [IntCast M] [LT M]
    [∀ a b : M, Decidable (a < b)] (trace : List (Env × Request M)) :
    ∀ db : DB M, OrderInv db → OrderInv (run db trace) := by
  induction trace with
  | nil => intro db h; exact h
  | cons a rest ih =>
    intro db h
    obtain ⟨env, req⟩ := a
    exact ih _ (serve_orderInv env db req h)

theorem serve_new_detail [Zero M] [Add M] [Mul M] [IntCast M] [LT M]
    [∀ a b : M, Decidable (a < b)] (env : Env) (db : DB M) (req : Request M)
    (d : PurchasingDetail M) (hd : d ∈ (serve env db req).2.details) (hn : d ∉ db.details) :
    CreatedBy env db req d ∧ d.SubTotal = priceOf db d.ItemID * ((d.Qty : Int) : M) := by
  rcases serve_orders env db req with ⟨_, h⟩ | ⟨now, userID, body, g, news, hp, hdet, _, hnews⟩
  · rw [h] at hd
    exact absurd hd hn
  · have hmem : d ∈ news := by
      rw [hdet] at hd
      rcases List.mem_append.mp hd with h | h
      · exact absurd h hn
      · exact h
    obtain ⟨hid, _, hsub⟩ := hnews d hmem
    refine ⟨⟨hn, hd, ?_, ?_⟩, hsub⟩
    · intro p hpm
      rw [hid]
      exact Nat.ne_of_lt (lt_nextID (List.mem_map_of_mem (fun p => p.ID) hpm))
    · rw [hp]
      exact ⟨newHeader now userID db body g, by simp, by rw [hid]; rfl⟩

theorem run_detail_origin [Zero M] [Add M] [Mul M] [IntCast M] [LT M]
    [∀ a b : M, Decidable (a < b)] (trace : List (Env × Request M)) :
    ∀ (db : DB M) (d : PurchasingDetail M), d ∈ (run db trace).details →
      d ∈ db.details ∨
      ∃ pre env req post, trace = pre ++ (env, req) :: post ∧
        CreatedBy env (run db pre) req d ∧
        d.SubTotal = priceOf (run db pre) d.ItemID * ((d.Qty : Int) : M) := by
  induction trace with
  | nil => intro db d h; exact Or.inl h
  | cons a rest ih =>
    intro db d h
    obtain ⟨env, req⟩ := a
    rcases ih _ d h with h1 | ⟨pre, e, r, post, ht, hc, hs⟩
    · by_cases hin : d ∈ db.details
      · exact Or.inl hin
      · right
        have := serve_new_detail env db req d h1 hin
        exact ⟨[], env, req, rest, rfl, this.1, this.2⟩
    · right
      exact ⟨(env, req) :: pre, e, r, post, by rw [ht]; rfl, hc, hs⟩

/-- C5: the order-total invariant.  In every store reached from the empty store
by requests served one after the other (any route, item updates and deletions
included, any failing store call), the grand total of every order header is the
sum of the subtotals of the lines that belong to it, and every line was created,
together with its order, by one request of the sequence, with a subtotal equal
to the price the store held for the line's item just before that request times
the line's quantity. -/
theorem order_total_invariant [Zero M] [Add M] [Mul M] [IntCast M] [LT M]
    [∀ a b : M, Decidable (a < b)] (trace : List (Env × Request M)) :
    (∀ p ∈ (run (DB.empty : DB M) trace).purchasings,
        p.GrandTotal = lineSum (run (DB.empty : DB M) trace) p.ID) ∧
      ∀ d ∈ (run (DB.empty : DB M) trace).details,
        ∃ pre env req post, trace = pre ++ (env, req) :: post ∧
          CreatedBy env (run (DB.empty : DB M) pre) req d ∧
          d.SubTotal = priceOf (run (DB.empty : DB M) pre) d.ItemID * ((d.Qty : Int) : M) := by
  constructor
  · have hinv : OrderInv (DB.empty : DB M) := ⟨by simp [DB.empty], by simp [DB.empty]⟩
    exact (run_orderInv trace _ hinv).2
  · intro d hd
    rcases run_detail_origin trace _ d hd with h | h
    · simp [DB.empty] at h
    · exact h

/-- C5, witness: after the sequence `endToEnd`, which ends with a price change,
the store holds one order with one line, and the invariant holds of it. -/
theorem order_total_invariant_witness :
    ((run (DB.empty : DB ℚ) endToEnd).purchasings.length = 1 ∧
      (run (DB.empty : DB ℚ) endToEnd).details.map (fun d => (d.PurchasingID, d.ItemID, d.Qty)) =
        [(1, 1, 3)]) ∧
    ((∀ p ∈ (run (DB.empty : DB ℚ) endToEnd).purchasings,
        p.GrandTotal = lineSum (run (DB.empty : DB ℚ) endToEnd) p.ID) ∧
      ∀ d ∈ (run (DB.empty : DB ℚ) endToEnd).details,
        ∃ pre env req post, endToEnd = pre ++ (env, req) :: post ∧
          CreatedBy env (run (DB.empty : DB ℚ) pre) req d ∧
          d.SubTotal = priceOf (run (DB.empty : DB ℚ) pre) d.ItemID * ((d.Qty : Int) : ℚ)) :=
  ⟨by decide, order_total_invariant endToEnd⟩

/-! ## Which requests write the stock -/

/-- C6, counterexample: an item update with stock 5 in its body, on the item
Bolt with stock 10, is answered 200 and leaves the item with stock 5. -/
theorem updateItem_changes_stock :
    (firstItem boltStore.items 1).map (fun it => it.Stock) = some 10 ∧
      (serve plainEnv boltStore
        (.secured "Bearer t" (.updateItem 1 (some ⟨"Bolt", 5, 3⟩)))).1.status = 200 ∧
      (firstItem (serve plainEnv boltStore
        (.secured "Bearer t" (.updateItem 1 (some ⟨"Bolt", 5, 3⟩)))).2.items 1).map
          (fun it => it.Stock) = some 5 := by
  decide

theorem CreateItem_stockView [Zero M] [LT M] [∀ a b : M, Decidable (a < b)] (fail : Site → Bool)
    (db : DB M) (req : CreateItemRequest M) :
    stockView db <+: stockView (CreateItem fail db req).2 := by
  unfold CreateItem
  repeat' split
  all_goals first
    | exact List.prefix_refl _
    | (simp only [stockView, List.map_append]; exact List.prefix_append _ _)

theorem DeleteItem_stockView (fail : Site → Bool) (db : DB M) (id : Nat) :
    stockView (DeleteItem fail db id).2 = stockView db := by
  unfold DeleteItem
  repeat' split
  all_goals first
    | rfl
    | (simp only [stockView, deleteItem, List.map_map]
       apply List.map_congr_left
       intro r _
       simp only [Function.comp]
       split <;> rfl)

theorem stockView_congr {db db2 : DB M} (h : db2.items = db.items) :
    stockView db <+: stockView db2 := by
  unfold stockView; rw [h]

theorem UpdateItem_items [Zero M] [LT M] [∀ a b : M, Decidable (a < b)] (fail : Site → Bool)
    (db : DB M) (id : Nat) (body : Option (UpdateItemRequest M))
    (h : (UpdateItem fail db id body).1.status = 200) :
    ∃ req, body = some req ∧ 0 ≤ req.Stock ∧
      (UpdateItem fail db id body).2.items = db.items.map (fun r =>
        if r.ID == id && !r.Deleted then
          { r with Name := req.Name, Stock := req.Stock, Price := req.Price }
        else r) := by
  unfold UpdateItem at h ⊢
  split at h
  · simp [failure] at h
  · rename_i item hit
    have hit2 : firstItem db.items id = some item := by
      by_cases hf : fail .first = true
      · simp [hf] at hit
      · simpa [hf] using hit
    obtain ⟨_, hid, hlive⟩ := firstItem_some hit2
    simp only [hit]
    cases body with
    | none => simp [failure] at h
    | some req =>
      simp only [] at h ⊢
      split at h
      · simp [failure] at h
      · split at h
        · simp [failure] at h
        · split at h
          · simp [failure] at h
          · split at h
            · simp [failure] at h
            · rename_i h1 h2 h3 h4
              refine ⟨req, rfl, not_lt.mp h3, ?_⟩
              simp only [h1, h2, h3, h4, if_false]
              simp only [saveItem]
              apply List.map_congr_left
              intro r _
              simp only [hid]
              split
              · rename_i hc
                simp only [Bool.and_eq_true, beq_iff_eq, Bool.not_eq_true'] at hc
                cases r
                cases item
                simp only [] at hc hid hlive ⊢
                simp [hc.1, hc.2, hid, hlive]
              · rfl

theorem UpdateItem_failed [Zero M] [LT M] [∀ a b : M, Decidable (a < b)] (fail : Site → Bool)
    (db : DB M) (id : Nat) (body : Option (UpdateItemRequest M))
    (h : (UpdateItem fail db id body).1.status ≠ 200) :
    (UpdateItem fail db id body).2 = db := by
  unfold UpdateItem at h ⊢
  split
  · rfl
  · rename_i item hit
    simp only [hit] at h
    cases body with
    | none => rfl
    | some req =>
      simp only [] at h ⊢
      by_cases h1 : req.Name = ""
      · rw [if_pos h1]
      · by_cases h2 : req.Price < 0
        · rw [if_neg h1, if_pos h2]
        · by_cases h3 : req.Stock < 0
          · rw [if_neg h1, if_neg h2, if_pos h3]
          · by_cases h4 : fail .save = true
            · rw [if_neg h1, if_neg h2, if_neg h3, if_pos h4]
            · rw [if_neg h1, if_neg h2, if_neg h3, if_neg h4] at h
              exact absurd rfl h

/-- C6, amended: item stock is written by purchase creation and by an item
update answered 200 only.  A request to any route other than purchase creation
that is not an item update answered 200, whatever its body, its authorization
header and its failing store calls, leaves the rows of the item table in place
with their keys and stocks (new rows come after them); an item update that is
not answered 200 (400, 401, 404 or 500) leaves the whole store as it was; and
an item update answered 200 has a parsed body with a stock that is not negative
and writes the name, stock and price of that body into the live row it
addresses, and nothing else. -/
theorem stock_frame [Zero M] [Add M] [Mul M] [IntCast M] [LT M]
    [∀ a b : M, Decidable (a < b)] (env : Env) (db : DB M) :
    (∀ req : Request M,
        (writesStock req = false ∨
          (isUpdateItem req = true ∧ (serve env db req).1.status ≠ 200)) →
        stockView db <+: stockView (serve env db req).2) ∧
      (∀ (authHeader : String) (id : Nat) (body : Option (UpdateItemRequest M)),
        (serve env db (.secured authHeader (.updateItem id body))).1.status ≠ 200 →
        (serve env db (.secured authHeader (.updateItem id body))).2 = db) ∧
      ∀ (l : Locals) (id : Nat) (body : Option (UpdateItemRequest M)),
        (handle env l db (.updateItem id body)).1.status = 200 →
        ∃ req, body = some req ∧ 0 ≤ req.Stock ∧
          (handle env l db (.updateItem id body)).2.items = db.items.map (fun r =>
            if r.ID == id && !r.Deleted then
              { r with Name := req.Name, Stock := req.Stock, Price := req.Price }
            else r) := by
  have hupd : ∀ (authHeader : String) (id : Nat) (body : Option (UpdateItemRequest M)),
      (serve env db (.secured authHeader (.updateItem id body))).1.status ≠ 200 →
      (serve env db (.secured authHeader (.updateItem id body))).2 = db := by
    intro authHeader id body h
    simp only [serve, protect] at h ⊢
    split
    · rfl
    · rfl
    · rename_i l hl
      simp only [hl, handle] at h ⊢
      exact UpdateItem_failed _ _ _ _ h
  refine ⟨?_, hupd, ?_⟩
  · intro req hw
    cases req with
    | health => exact List.prefix_refl _
    | register body =>
      cases body with
      | none => exact List.prefix_refl _
      | some r => exact stockView_congr (Register_items _ _ _ _)
    | login body =>
      cases body with
      | none => exact List.prefix_refl _
      | some r => exact List.prefix_refl _
    | secured authHeader r =>
      cases r with
      | updateItem id body =>
        rcases hw with hw | ⟨_, hw⟩
        · simp [writesStock] at hw
        · rw [hupd authHeader id body hw]
      | createPurchase body =>
        rcases hw with hw | ⟨hw, _⟩
        · simp [writesStock] at hw
        · simp [isUpdateItem] at hw
      | createItem body =>
        simp only [serve, protect]
        split
        · exact List.prefix_refl _
        · exact List.prefix_refl _
        · cases body with
          | none => exact List.prefix_refl _
          | some r => exact CreateItem_stockView _ _ _
      | deleteItem id =>
        simp only [serve, protect]
        split
        · exact List.prefix_refl _
        · exact List.prefix_refl _
        · simp only [handle]
          rw [DeleteItem_stockView]
      | createSupplier body =>
        simp only [serve, protect]
        split
        · exact List.prefix_refl _
        · exact List.prefix_refl _
        · cases body with
          | none => exact List.prefix_refl _
          | some r => exact stockView_congr (CreateSupplier_items _ _ _)
      | updateSupplier id body =>
        simp only [serve, protect]
        split
        · exact List.prefix_refl _
        · exact List.prefix_refl _
        · exact stockView_congr (UpdateSupplier_items _ _ _ _)
      | deleteSupplier id =>
        simp only [serve, protect]
        split
        · exact List.prefix_refl _
        · exact List.prefix_refl _
        · exact stockView_congr (DeleteSupplier_items _ _ _)
      | getProfile =>
        simp only [serve, protect]
        split <;> exact List.prefix_refl _
      | getAllItems =>
        simp only [serve, protect]
        split <;> exact List.prefix_refl _
      | getItem id =>
        simp only [serve, protect]
        split <;> exact List.prefix_refl _
      | getAllSuppliers =>
        simp only [serve, protect]
        split <;> exact List.prefix_refl _
      | getSupplier id =>
        simp only [serve, protect]
        split <;> exact List.prefix_refl _
      | getAllPurchases =>
        simp only [serve, protect]
        split <;> exact List.prefix_refl _
      | getPurchase id =>
        simp only [serve, protect]
        split <;> exact List.prefix_refl _
  · intro l id body h
    exact UpdateItem_items _ _ _ _ h

/-- C6, witness: deleting the item Bolt keeps its stock; an update of Bolt with
a negative stock is answered 400 and changes nothing; an update with stock 5 is
answered 200 and writes its body. -/
theorem stock_frame_witness :
    (writesStock (Request.secured "Bearer t" (.deleteItem 1) : Request ℚ) = false ∧
      stockView boltStore <+:
        stockView (serve plainEnv boltStore (.secured "Bearer t" (.deleteItem 1))).2) ∧
    ((serve plainEnv boltStore
        (.secured "Bearer t" (.updateItem 1 (some ⟨"Bolt", -1, 3⟩)))).1.status = 400 ∧
      (serve plainEnv boltStore
        (.secured "Bearer t" (.updateItem 1 (some ⟨"Bolt", -1, 3⟩)))).2 = boltStore ∧
      stockView boltStore <+: stockView (serve plainEnv boltStore
        (.secured "Bearer t" (.updateItem 1 (some ⟨"Bolt", -1, 3⟩)))).2) ∧
    (handle plainEnv ⟨1, "ann", "user"⟩ boltStore
        (.updateItem 1 (some ⟨"Bolt", 5, 3⟩))).1.status = 200 ∧
      ∃ req : UpdateItemRequest ℚ, some ⟨"Bolt", 5, 3⟩ = some req ∧ 0 ≤ req.Stock ∧
        (handle plainEnv ⟨1, "ann", "user"⟩ boltStore
          (.updateItem 1 (some ⟨"Bolt", 5, 3⟩))).2.items = boltStore.items.map (fun r =>
            if r.ID == 1 && !r.Deleted then
              { r with Name := req.Name, Stock := req.Stock, Price := req.Price }
            else r) :=
  ⟨⟨by decide, (stock_frame plainEnv boltStore).1 _ (Or.inl (by decide))⟩,
    ⟨by decide,
      (stock_frame plainEnv boltStore).2.1 "Bearer t" 1 (some ⟨"Bolt", -1, 3⟩) (by decide),
      (stock_frame plainEnv boltStore).1
        (.secured "Bearer t" (.updateItem 1 (some ⟨"Bolt", -1, 3⟩)))
        (Or.inr ⟨by decide, by decide⟩)⟩,
    by decide,
    (stock_frame plainEnv boltStore).2.2 ⟨1, "ann", "user"⟩ 1 (some ⟨"Bolt", 5, 3⟩) (by decide)⟩

/-! ## Validation in `CreatePurchase` -/

/-- C7: a parsed request whose supplier id is 0 or whose item list is empty is
answered 400, with the message "Supplier ID is required" when the supplier id
is 0 and "At least one item is required" otherwise, and the store is unchanged.
The answer is the same for every store and for every oracle of failing store
calls, the one under which the supplier lookup and `Begin` fail included: it
is decided before any store call. -/
theorem createPurchase_validation [Zero M] [Add M] [Mul M] [IntCast M]
    (fail : Site → Bool) (now userID : Nat) (db : DB M) (req : CreatePurchaseRequest)
    (h : req.SupplierID = 0 ∨ req.Items = []) :
    CreatePurchase fail now userID db req =
      (failure 400 (if req.SupplierID = 0 then "Supplier ID is required"
        else "At least one item is required"), db) := by
  unfold CreatePurchase
  by_cases h0 : req.SupplierID = 0
  · simp [h0]
  · have h1 : req.Items = [] := h.resolve_left h0
    simp [h0, h1]

/-- C7, witness: supplier id 0, and an empty item list, with every store call failing. -/
theorem createPurchase_validation_witness :
    (((⟨0, [⟨1, 3⟩]⟩ : CreatePurchaseRequest).SupplierID = 0 ∨
        (⟨0, [⟨1, 3⟩]⟩ : CreatePurchaseRequest).Items = []) ∧
      CreatePurchase allFail 0 1 boltStore ⟨0, [⟨1, 3⟩]⟩ =
        (failure 400 "Supplier ID is required", boltStore)) ∧
    (((⟨1, []⟩ : CreatePurchaseRequest).SupplierID = 0 ∨
        (⟨1, []⟩ : CreatePurchaseRequest).Items = []) ∧
      CreatePurchase allFail 0 1 boltStore ⟨1, []⟩ =
        (failure 400 "At least one item is required", boltStore)) :=
  ⟨⟨by decide, createPurchase_validation allFail 0 1 boltStore ⟨0, [⟨1, 3⟩]⟩ (by decide)⟩,
    by decide, createPurchase_validation allFail 0 1 boltStore ⟨1, []⟩ (by decide)⟩

theorem processItems_noFail_error [Add M] [Mul M] [IntCast M] (pid : Nat)
    (lines : List PurchaseItemRequest) :
    ∀ (k : Nat) (g : M) (w : DB M) (r : Response M),
      processItems noFail pid k lines g w = .error r → r.status = 400 := by
  induction lines with
  | nil => intro k g w r h; simp [processItems] at h
  | cons l rest ih =>
    intro k g w r h
    unfold processItems at h
    split at h
    · cases h; rfl
    · split at h
      · cases h; rfl
      · split at h
        · cases h; rfl
        · simp only [] at h
          split at h
          · rename_i hf; simp [noFail] at hf
          · split at h
            · rename_i hf; simp [noFail] at hf
            · exact ih _ _ _ _ h

theorem CreatePurchase_noFail_status [Zero M] [Add M] [Mul M] [IntCast M]
    (now userID : Nat) (db : DB M) (req : CreatePurchaseRequest) :
    (CreatePurchase noFail now userID db req).1.status = 400 ∨
      (CreatePurchase noFail now userID db req).1.status = 201 := by
  unfold CreatePurchase
  split
  · left; rfl
  · split
    · left; rfl
    · split
      · left; rfl
      · split
        · rename_i hf; simp [noFail] at hf
        · simp only []
          split
          · rename_i hf; simp [noFail] at hf
          · split
            · rename_i r hr
              left
              exact processItems_noFail_error _ _ _ _ _ _ hr
            · split
              · rename_i hf; simp [noFail] at hf
              · split
                · rename_i hf; simp [noFail] at hf
                · right; rfl

theorem processItems_ok_valid [Add M] [Mul M] [IntCast M] (fail : Site → Bool)
    (pid : Nat) (lines : List PurchaseItemRequest) :
    ∀ (k : Nat) (g : M) (w : DB M) (res : M × DB M),
      processItems fail pid k lines g w = .ok res →
      ∀ l ∈ lines, l.ItemID ≠ 0 ∧ 0 < l.Qty := by
  induction lines with
  | nil => intro k g w res _ l hl; cases hl
  | cons l rest ih =>
    intro k g w res h x hx
    obtain ⟨item, h1, h2, _, _, _, _, _, hrest⟩ := processItems_cons_ok h
    rcases List.mem_cons.mp hx with rfl | hx
    · exact ⟨h1, h2⟩
    · exact ih _ _ _ _ hrest x hx

/-- C8: with no failing store call, a request in which some line has item id 0
or a quantity that is not positive is answered 400 and the store is unchanged,
wherever the line stands in the list (and whether or not the supplier exists);
and, whatever the failing store calls, a request is answered 201 only if every
line has an item id other than 0 and a positive quantity. -/
theorem createPurchase_invalid_line [Zero M] [Add M] [Mul M] [IntCast M]
    (now userID : Nat) (db : DB M) (req : CreatePurchaseRequest) :
    ((∃ l ∈ req.Items, l.ItemID = 0 ∨ l.Qty ≤ 0) →
        (CreatePurchase noFail now userID db req).1.status = 400 ∧
        (CreatePurchase noFail now userID db req).2 = db) ∧
      ∀ fail : Site → Bool, (CreatePurchase fail now userID db req).1.status = 201 →
        ∀ l ∈ req.Items, l.ItemID ≠ 0 ∧ 0 < l.Qty := by
  have h2 : ∀ fail : Site → Bool, (CreatePurchase fail now userID db req).1.status = 201 →
      ∀ l ∈ req.Items, l.ItemID ≠ 0 ∧ 0 < l.Qty := by
    intro fail h
    rcases CreatePurchase_cases fail now userID db req with
      ⟨hs, _⟩ | ⟨_, _, _, _, _, g, w, hp, _⟩
    · rw [h] at hs
      rcases hs with hs | hs <;> cases hs
    · exact processItems_ok_valid _ _ _ _ _ _ _ hp
  refine ⟨?_, h2⟩
  rintro ⟨l, hl, hbad⟩
  have hne : (CreatePurchase noFail now userID db req).1.status ≠ 201 := by
    intro h
    have := h2 noFail h l hl
    rcases hbad with hb | hb
    · exact this.1 hb
    · omega
  refine ⟨?_, CreatePurchase_failed noFail now userID db req hne⟩
  rcases CreatePurchase_noFail_status now userID db req with h | h
  · exact h
  · exact absurd h hne

/-- C8, witness: a line of quantity 0 after a valid line; the valid line alone is accepted. -/
theorem createPurchase_invalid_line_witness :
    (∃ l ∈ (⟨1, [⟨1, 3⟩, ⟨1, 0⟩]⟩ : CreatePurchaseRequest).Items, l.ItemID = 0 ∨ l.Qty ≤ 0) ∧
      (CreatePurchase noFail 0 1 boltStore ⟨1, [⟨1, 3⟩, ⟨1, 0⟩]⟩).1.status = 400 ∧
      (CreatePurchase noFail 0 1 boltStore ⟨1, [⟨1, 3⟩, ⟨1, 0⟩]⟩).2 = boltStore ∧
      (CreatePurchase noFail 0 1 boltStore ⟨1, [⟨1, 3⟩]⟩).1.status = 201 :=
  ⟨by decide,
    ((createPurchase_invalid_line 0 1 boltStore ⟨1, [⟨1, 3⟩, ⟨1, 0⟩]⟩).1 (by decide)).1,
    ((createPurchase_invalid_line 0 1 boltStore ⟨1, [⟨1, 3⟩, ⟨1, 0⟩]⟩).1 (by decide)).2,
    by decide⟩

/-! ## The authentication middleware -/

theorem AuthMiddleware_respond (parse : String → Option TokenClaims) (authHeader : String)
    (r : Response M) (h : AuthMiddleware parse authHeader = .respond r) :
    r.status = 401 ∧ r.success = some false := by
  unfold AuthMiddleware at h
  split at h
  · cases h; exact ⟨rfl, rfl⟩
  · simp only [] at h
    split at h
    · split at h
      · cases h; exact ⟨rfl, rfl⟩
      · split at h
        · cases h; exact ⟨rfl, rfl⟩
        · cases h; exact ⟨rfl, rfl⟩
        · split at h
          · split at h
            · split at h
              · cases h
              · cases h
            · cases h
          · cases h
    · cases h; exact ⟨rfl, rfl⟩

/-- C9, the failing input: a validly signed token whose claims have no
`user_id` makes the middleware panic on the type assertion, and the request is
answered 500 by the error handler, not 401. -/
theorem authMiddleware_claim_shape_panics :
    (AuthMiddleware claimlessParse "Bearer t" : Handled ℚ) =
        .panic "interface conversion: interface {} is nil, not float64" ∧
      (protect claimlessParse "Bearer t" boltStore
        (fun l => handle plainEnv l boltStore .getProfile)).1.status = 500 := by
  decide

/-! ## Registration -/

theorem Register_validation (fail : Site → Bool) (hash : String → Option String) (db : DB M)
    (req : RegisterRequest) :
    ((req.Username = "" ∨ req.Password = "" ∨ len req.Password < 6) →
        (Register fail hash db req).1.status = 400 ∧ (Register fail hash db req).2 = db) ∧
      (¬ (req.Username = "" ∨ req.Password = "" ∨ len req.Password < 6) →
        (Register fail hash db req).1.status = 409 ∨
          (Register fail hash db req).1.status = 201 ∨
          (Register fail hash db req).1.status = 500) := by
  constructor
  · intro h
    unfold Register
    by_cases h1 : req.Username = "" ∨ req.Password = ""
    · simp [h1, failure]
    · have h2 : len req.Password < 6 := by tauto
      simp [h1, h2, failure]
  · intro h
    have h1 : ¬ (req.Username = "" ∨ req.Password = "") := by tauto
    have h2 : ¬ len req.Password < 6 := by tauto
    unfold Register
    simp only [h1, h2, if_false]
    repeat' split
    all_goals simp [failure, success]

/-- C10, the failing input: the password "ééé" has 3 characters and 6 bytes;
the length check counts bytes, so the request passes validation and the user is
stored with status 201. -/
theorem register_counts_bytes :
    ("ééé".length = 3 ∧ len "ééé" = 6) ∧
      (Register noFail (fun p => some p) (DB.empty : DB ℚ) ⟨"bob", "ééé", ""⟩).1.status = 201 ∧
      (Register noFail (fun p => some p) (DB.empty : DB ℚ) ⟨"bob", "ééé", ""⟩).2.users =
        [⟨1, "bob", "ééé", "user", false⟩] := by
  decide

/-! ## Registering twice -/

theorem Register_created (fail : Site → Bool) (hash : String → Option String) (db : DB M)
    (req : RegisterRequest) (h : (Register fail hash db req).1.status = 201) :
    req.Username ≠ "" ∧ req.Password ≠ "" ∧ 6 ≤ len req.Password ∧
      ∃ hashed, hash req.Password = some hashed ∧
        (Register fail hash db req).2.users = db.users ++
          [{ ID := nextID (db.users.map (fun r => r.ID))
             Username := req.Username
             Password := hashed
             Role := if req.Role = "" then "user" else req.Role
             Deleted := false }] := by
  unfold Register at h ⊢
  by_cases h1 : req.Username = "" ∨ req.Password = ""
  · simp [h1, failure] at h
  · by_cases h2 : len req.Password < 6
    · simp [h1, h2, failure] at h
    · by_cases h3 : (if fail .first then none
          else firstUserByName db.users req.Username).isSome = true
      · simp [h1, h2, h3, failure] at h
      · simp only [h1, h2, h3, if_false] at h ⊢
        push_neg at h1
        refine ⟨h1.1, h1.2, not_lt.mp h2, ?_⟩
        cases hh : hash req.Password with
        | none => simp [hh, failure] at h
        | some hashed =>
          simp only [hh] at h ⊢
          by_cases h4 : fail .create = true ∨
              (db.users.any fun r => r.Username == req.Username) = true
          · rw [if_pos h4] at h
            simp [failure] at h
          · refine ⟨hashed, rfl, ?_⟩
            rw [if_neg h4]
            simp

theorem Register_store (fail : Site → Bool) (hash : String → Option String) (db : DB M)
    (req : RegisterRequest) (h : (Register fail hash db req).1.status ≠ 201) :
    (Register fail hash db req).2 = db := by
  unfold Register at h ⊢
  by_cases h1 : req.Username = "" ∨ req.Password = ""
  · rw [if_pos h1]
  · by_cases h2 : len req.Password < 6
    · rw [if_neg h1, if_pos h2]
    · by_cases h3 : (if fail .first then none
          else firstUserByName db.users req.Username).isSome = true
      · rw [if_neg h1, if_neg h2, if_pos h3]
      · rw [if_neg h1, if_neg h2, if_neg h3] at h ⊢
        cases hh : hash req.Password with
        | none => rfl
        | some hashed =>
          simp only [hh] at h ⊢
          by_cases h4 : fail .create = true ∨
              (db.users.any fun r => r.Username == req.Username) = true
          · rw [if_pos h4]
          · rw [if_neg h4] at h
            exact absurd rfl h

theorem Register_taken (fail : Site → Bool) (hash : String → Option String) (db : DB M)
    (req : RegisterRequest) (hu : req.Username ≠ "") (hp : req.Password ≠ "")
    (hl : 6 ≤ len req.Password) (u : User) (hmem : u ∈ db.users)
    (hname : u.Username = req.Username) (hlive : u.Deleted = false) :
    (Register fail hash db req).2 = db ∧
      ((Register fail hash db req).1.status = 409 ∨ (Register fail hash db req).1.status = 500) ∧
      (fail .first = false → (Register fail hash db req).1 = failure 409 "Username already exists") := by
  have hany : (db.users.any fun r => r.Username == req.Username) = true := by
    rw [List.any_eq_true]
    exact ⟨u, hmem, by simp [hname]⟩
  have hfind : (firstUserByName db.users req.Username).isSome = true := by
    unfold firstUserByName
    rw [List.find?_isSome]
    exact ⟨u, hmem, by simp [hname, hlive]⟩
  have h1 : ¬ (req.Username = "" ∨ req.Password = "") := by tauto
  have h2 : ¬ len req.Password < 6 := by omega
  unfold Register
  simp only [h1, h2, if_false, hany, or_true, if_true]
  by_cases hf : fail .first = true
  · simp only [hf, if_true, Option.isSome_none]
    cases hash req.Password <;> simp [failure]
  · simp [hf, hfind, failure]

/-- C11, counterexample: bob registers and is answered 201; in a second
registration of bob the lookup of the username fails, the handler goes on to
the insert, the unique index refuses it, and the answer is 500, not 409. -/
theorem register_twice_lookup_fails :
    (Register noFail (fun p => some p) (DB.empty : DB ℚ) ⟨"bob", "secret1", ""⟩).1.status = 201 ∧
      (Register lookupFails (fun p => some p)
        (Register noFail (fun p => some p) (DB.empty : DB ℚ) ⟨"bob", "secret1", ""⟩).2
        ⟨"bob", "another", "user"⟩).1 = failure 500 "Failed to create user" := by
  decide

/-- C11, amended: registering twice with the same username.  For every store,
every two register requests with equal usernames of which the second has a
password that passes validation, any roles, any password hashing and any
failing store calls: if the first is answered 201, then it has stored one new
user, with the hash of its password and with the requested role, or the role
"user" when the requested role is empty; the second request leaves the store as
the first left it, so no second user is stored and the first user's hash and
role are unchanged; the second is answered 409 "Username already exists" when
its lookup of the username does not fail, and 409 or 500 in every case. -/
theorem register_twice (fail1 fail2 : Site → Bool) (hash1 hash2 : String → Option String)
    (db : DB M) (r1 r2 : RegisterRequest) (hname : r2.Username = r1.Username)
    (hp2 : r2.Password ≠ "") (hl2 : 6 ≤ len r2.Password)
    (h1 : (Register fail1 hash1 db r1).1.status = 201) :
    (∃ hashed, hash1 r1.Password = some hashed ∧
        (Register fail1 hash1 db r1).2.users = db.users ++
          [{ ID := nextID (db.users.map (fun r => r.ID))
             Username := r1.Username
             Password := hashed
             Role := if r1.Role = "" then "user" else r1.Role
             Deleted := false }]) ∧
      (Register fail2 hash2 (Register fail1 hash1 db r1).2 r2).2 = (Register fail1 hash1 db r1).2 ∧
      ((Register fail2 hash2 (Register fail1 hash1 db r1).2 r2).1.status = 409 ∨
        (Register fail2 hash2 (Register fail1 hash1 db r1).2 r2).1.status = 500) ∧
      (fail2 .first = false →
        (Register fail2 hash2 (Register fail1 hash1 db r1).2 r2).1 =
          failure 409 "Username already exists") := by
  obtain ⟨hu, _, _, hashed, hh, husers⟩ := Register_created fail1 hash1 db r1 h1
  refine ⟨⟨hashed, hh, husers⟩, ?_⟩
  have hmem : ({ ID := nextID (db.users.map (fun r => r.ID))
                 Username := r1.Username
                 Password := hashed
                 Role := if r1.Role = "" then "user" else r1.Role
                 Deleted := false } : User) ∈ (Register fail1 hash1 db r1).2.users := by
    rw [husers]; simp
  exact Register_taken fail2 hash2 _ r2 (by rw [hname]; exact hu) hp2 hl2 _ hmem hname.symm rfl

/-- C11, witness: bob registers with an empty role and is stored with role
"user"; a second registration of bob, with no failing store call, is answered
409 and stores nothing. -/
theorem register_twice_witness :
    ((⟨"bob", "another", "user"⟩ : RegisterRequest).Username =
        (⟨"bob", "secret1", ""⟩ : RegisterRequest).Username ∧
      (Register noFail (fun p => some p) (DB.empty : DB ℚ) ⟨"bob", "secret1", ""⟩).1.status = 201) ∧
    (Register noFail (fun p => some p)
        (Register noFail (fun p => some p) (DB.empty : DB ℚ) ⟨"bob", "secret1", ""⟩).2
        ⟨"bob", "another", "user"⟩).1 = failure 409 "Username already exists" ∧
    (Register noFail (fun p => some p)
        (Register noFail (fun p => some p) (DB.empty : DB ℚ) ⟨"bob", "secret1", ""⟩).2
        ⟨"bob", "another", "user"⟩).2.users = [⟨1, "bob", "secret1", "user", false⟩] :=
  ⟨⟨by decide, by decide⟩,
    (register_twice noFail noFail (fun p => some p) (fun p => some p) (DB.empty : DB ℚ)
      ⟨"bob", "secret1", ""⟩ ⟨"bob", "another", "user"⟩ (by decide) (by decide) (by decide)
      (by decide)).2.2.2 (by decide),
    by decide⟩

/-! ## Login -/

/-- C12: login does not reveal whether a username exists.  For every store and
every two login requests with non-empty username and password, one naming a
username for which the store has no user and one naming an existing user with a
password that does not verify against the stored hash, the two responses are
equal, status, success flag, message and all: 401 "Invalid username or
password".  This holds whatever store calls fail. -/
theorem login_no_enumeration (failA failB : Site → Bool) (verify : String → String → Bool)
    (sign : MapClaims → Option String) (nowA nowB : Nat) (db : DB M) (reqA reqB : LoginRequest)
    (hA : reqA.Username ≠ "" ∧ reqA.Password ≠ "")
    (hB : reqB.Username ≠ "" ∧ reqB.Password ≠ "")
    (hno : firstUserByName db.users reqA.Username = none)
    (u : User) (hu : firstUserByName db.users reqB.Username = some u)
    (hwrong : verify u.Password reqB.Password = false) :
    Login failA verify sign nowA db reqA = Login failB verify sign nowB db reqB ∧
      Login failA verify sign nowA db reqA = failure 401 "Invalid username or password" := by
  have h1 : ¬ (reqA.Username = "" ∨ reqA.Password = "") := by tauto
  have h2 : ¬ (reqB.Username = "" ∨ reqB.Password = "") := by tauto
  have eA : Login failA verify sign nowA db reqA =
      (failure 401 "Invalid username or password" : Response M) := by
    unfold Login
    rw [if_neg h1, hno]
    simp
  have eB : Login failB verify sign nowB db reqB =
      (failure 401 "Invalid username or password" : Response M) := by
    unfold Login
    rw [if_neg h2, hu]
    by_cases hf : failB .first = true
    · simp [hf]
    · simp [hf, hwrong]
  exact ⟨eA.trans eB.symm, eA⟩

/-- C12, witness: the unknown user zed and the user ann with a wrong password. -/
theorem login_no_enumeration_witness :
    (firstUserByName annStore.users "zed" = none ∧
      firstUserByName annStore.users "ann" = some ⟨1, "ann", "secret1", "user", false⟩) ∧
    (Login noFail (fun h p => h == p) (fun _ => some "t") 0 annStore ⟨"zed", "secret1"⟩ =
        Login noFail (fun h p => h == p) (fun _ => some "t") 0 annStore ⟨"ann", "wrong"⟩ ∧
      Login noFail (fun h p => h == p) (fun _ => some "t") 0 annStore ⟨"zed", "secret1"⟩ =
        failure 401 "Invalid username or password") :=
  ⟨⟨by decide, by decide⟩,
    login_no_enumeration noFail noFail (fun h p => h == p) (fun _ => some "t") 0 0 annStore
      ⟨"zed", "secret1"⟩ ⟨"ann", "wrong"⟩ (by decide) (by decide) (by decide)
      ⟨1, "ann", "secret1", "user", false⟩ (by decide) (by decide)⟩

/-! ## The token of a login -/

theorem toUint_natCast (n : Nat) : toUint (n : ℚ) = n := by
  simp [toUint]

theorem splitOn_bearer (tok : String) (h : Char.ofNat 32 ∉ tok.toList) :
    ("Bearer " ++ tok).toList.splitOn (Char.ofNat 32) = ["Bearer".toList, tok.toList] := by
  have e : ("Bearer " ++ tok).toList =
      [Char.ofNat 32].intercalate ["Bearer".toList, tok.toList] := by
    simp [List.intercalate]
  rw [e]
  apply List.splitOn_intercalate
  · intro l hl
    simp only [List.mem_cons, List.mem_singleton, List.not_mem_nil, or_false] at hl
    rcases hl with rfl | rfl
    · decide
    · exact h
  · simp

theorem AuthMiddleware_bearer (parse : String → Option TokenClaims) (tok : String)
    (h : Char.ofNat 32 ∉ tok.toList) :
    (AuthMiddleware parse ("Bearer " ++ tok) : Handled M) =
      match parse tok with
      | none => .respond (failure 401 "Invalid or expired token")
      | some .other => .respond (failure 401 "Invalid token claims")
      | some (.mapClaims claims) =>
        match claims.lookup "user_id" with
        | some (.num userID) =>
          match claims.lookup "username" with
          | some (.str username) =>
            match claims.lookup "role" with
            | some (.str role) => .next ⟨toUint userID, username, role⟩
            | v => .panic (assertionPanic v "string")
          | v => .panic (assertionPanic v "string")
        | v => .panic (assertionPanic v "float64") := by
  have hne : ¬ ("Bearer " ++ tok = "") := by
    intro e
    have := congrArg String.length e
    simp at this
    exact absurd this.1 (by decide)
  unfold AuthMiddleware
  rw [if_neg hne]
  simp only [splitOn_bearer tok h]
  rfl

/-- C13: the token of a successful login.  When `Login`, at time `now` in Unix
seconds, answers 200 with the token `tok` for the user data `id`, `username`,
`role`, these are the key, name and role of the user it has found and verified,
and `tok` is the signature of the claims `user_id`, `username` and `role` of
that user with `exp` equal to `now` plus 24 hours.  With a token library that
gives these claims back until `exp` and rejects the token from `exp` on, and
whose tokens contain no space, the middleware passes a request carrying
`Bearer tok` to the next handler, with the user's key, name and role in the
context, at every time before `now` plus 24 hours, and answers 401 at every
time from `now` plus 24 hours on. -/
theorem login_token (fail : Site → Bool) (verify : String → String → Bool)
    (sign : MapClaims → Option String) (now : Nat) (db : DB M) (req : LoginRequest)
    (tok : String) (id : Nat) (username role : String)
    (parseAt : Nat → String → Option TokenClaims)
    (hlogin : Login fail verify sign now db req =
      success 200 (some "Login successful") (some (.session tok id username role)))
    (hspace : Char.ofNat 32 ∉ tok.toList)
    (hparse : ParsesIssued parseAt tok (loginClaims id username role now) (now + 24 * 3600)) :
    (∃ user, firstUserByName db.users req.Username = some user ∧
        verify user.Password req.Password = true ∧
        user.ID = id ∧ user.Username = username ∧ user.Role = role) ∧
      sign (loginClaims id username role now) = some tok ∧
      ∀ t : Nat,
        (t < now + 24 * 3600 →
          (AuthMiddleware (parseAt t) ("Bearer " ++ tok) : Handled M) =
            .next ⟨id, username, role⟩) ∧
        (now + 24 * 3600 ≤ t →
          (AuthMiddleware (parseAt t) ("Bearer " ++ tok) : Handled M) =
            .respond (failure 401 "Invalid or expired token")) := by
  have hissue : (∃ user, firstUserByName db.users req.Username = some user ∧
        verify user.Password req.Password = true ∧
        user.ID = id ∧ user.Username = username ∧ user.Role = role) ∧
      sign (loginClaims id username role now) = some tok := by
    unfold Login at hlogin
    split at hlogin
    · simp [failure, success] at hlogin
    · split at hlogin
      · simp [failure, success] at hlogin
      · rename_i user hfind
        split at hlogin
        · simp [failure, success] at hlogin
        · rename_i hv
          split at hlogin
          · simp [failure, success] at hlogin
          · rename_i tokenString hs
            simp only [success, Response.mk.injEq, Option.some.injEq, Data.session.injEq,
              true_and, and_true] at hlogin
            obtain ⟨rfl, rfl, rfl, rfl⟩ := hlogin
            have hfind2 : firstUserByName db.users req.Username = some user := by
              by_cases hf : fail .first = true
              · simp [hf] at hfind
              · simpa [hf] using hfind
            exact ⟨⟨user, hfind2, by simpa using hv, rfl, rfl, rfl⟩, hs⟩
  refine ⟨hissue.1, hissue.2, fun t => ⟨fun ht => ?_, fun ht => ?_⟩⟩
  · rw [AuthMiddleware_bearer _ _ hspace, hparse t, if_pos ht]
    simp [loginClaims, List.lookup, toUint_natCast]
  · rw [AuthMiddleware_bearer _ _ hspace, hparse t, if_neg (by omega)]

/-- C13, witness: ann logs in at time 0; her token is accepted at second 86399
and rejected at second 86401. -/
theorem login_token_witness :
    (Login noFail (fun h p => h == p) (fun _ => some "t") 0 annStore ⟨"ann", "secret1"⟩ =
        success 200 (some "Login successful") (some (.session "t" 1 "ann" "user")) ∧
      Char.ofNat 32 ∉ "t".toList ∧
      ParsesIssued dayParse "t" (loginClaims 1 "ann" "user" 0) (0 + 24 * 3600)) ∧
    ((AuthMiddleware (dayParse 86399) ("Bearer " ++ "t") : Handled ℚ) =
        .next ⟨1, "ann", "user"⟩ ∧
      (AuthMiddleware (dayParse 86401) ("Bearer " ++ "t") : Handled ℚ) =
        .respond (failure 401 "Invalid or expired token")) :=
  have hlogin : Login noFail (fun h p => h == p) (fun _ => some "t") 0 annStore
      ⟨"ann", "secret1"⟩ =
      success 200 (some "Login successful") (some (.session "t" 1 "ann" "user")) := by decide
  have hparse : ParsesIssued dayParse "t" (loginClaims 1 "ann" "user" 0) (0 + 24 * 3600) := by
    intro t
    simp [dayParse]
  ⟨⟨hlogin, by decide, hparse⟩,
    ((login_token noFail (fun h p => h == p) (fun _ => some "t") 0 annStore ⟨"ann", "secret1"⟩
      "t" 1 "ann" "user" dayParse hlogin (by decide) hparse).2.2 86399).1 (by decide),
    ((login_token noFail (fun h p => h == p) (fun _ => some "t") 0 annStore ⟨"ann", "secret1"⟩
      "t" 1 "ann" "user" dayParse hlogin (by decide) hparse).2.2 86401).2 (by decide)⟩

/-! ## The response envelope -/

theorem envelope_failure (code : Nat) (msg : String) (h : 300 ≤ code) :
    Envelope (failure code msg : Response M) := by
  refine ⟨rfl, false, rfl, ?_⟩
  simp only [failure]
  constructor
  · intro h; cases h
  · intro h2; omega

theorem envelope_success (code : Nat) (msg : Option String) (d : Option (Data M))
    (h : 200 ≤ code ∧ code < 300) : Envelope (success code msg d) :=
  ⟨rfl, true, rfl, by simp [success, h]⟩

theorem processItems_error_envelope [Add M] [Mul M] [IntCast M] (fail : Site → Bool) (pid : Nat)
    (lines : List PurchaseItemRequest) :
    ∀ (k : Nat) (g : M) (w : DB M) (r : Response M),
      processItems fail pid k lines g w = .error r → Envelope r := by
  induction lines with
  | nil => intro k g w r h; simp [processItems] at h
  | cons l rest ih =>
    intro k g w r h
    unfold processItems at h
    split at h
    · cases h; exact envelope_failure _ _ (by decide)
    · split at h
      · cases h; exact envelope_failure _ _ (by decide)
      · split at h
        · cases h; exact envelope_failure _ _ (by decide)
        · simp only [] at h
          split at h
          · cases h; exact envelope_failure _ _ (by decide)
          · split at h
            · cases h; exact envelope_failure _ _ (by decide)
            · exact ih _ _ _ _ h

theorem CreatePurchase_envelope [Zero M] [Add M] [Mul M] [IntCast M] (fail : Site → Bool)
    (now userID : Nat) (db : DB M) (req : CreatePurchaseRequest) :
    Envelope (CreatePurchase fail now userID db req).1 := by
  unfold CreatePurchase
  split
  · exact envelope_failure _ _ (by decide)
  · split
    · exact envelope_failure _ _ (by decide)
    · split
      · exact envelope_failure _ _ (by decide)
      · split
        · exact envelope_failure _ _ (by decide)
        · simp only []
          split
          · exact envelope_failure _ _ (by decide)
          · split
            · rename_i r hr
              exact processItems_error_envelope _ _ _ _ _ _ _ hr
            · split
              · exact envelope_failure _ _ (by decide)
              · split
                · exact envelope_failure _ _ (by decide)
                · exact envelope_success _ _ _ (by decide)

theorem GetAllPurchases_envelope (fail : Site → Bool) (db : DB M) :
    Envelope (GetAllPurchases fail db) := by
  unfold GetAllPurchases
  split
  · exact envelope_failure _ _ (by decide)
  · exact envelope_success _ _ _ (by decide)

theorem GetPurchase_envelope (fail : Site → Bool) (db : DB M) (id : Nat) :
    Envelope (GetPurchase fail db id) := by
  unfold GetPurchase
  split
  · exact envelope_failure _ _ (by decide)
  · exact envelope_success _ _ _ (by decide)

theorem GetAllItems_envelope (fail : Site → Bool) (db : DB M) :
    Envelope (GetAllItems fail db) := by
  unfold GetAllItems
  split
  · exact envelope_failure _ _ (by decide)
  · exact envelope_success _ _ _ (by decide)

theorem GetItem_envelope (fail : Site → Bool) (db : DB M) (id : Nat) :
    Envelope (GetItem fail db id) := by
  unfold GetItem
  split
  · exact envelope_failure _ _ (by decide)
  · exact envelope_success _ _ _ (by decide)

theorem CreateItem_envelope [Zero M] [LT M] [∀ a b : M, Decidable (a < b)] (fail : Site → Bool)
    (db : DB M) (req : CreateItemRequest M) : Envelope (CreateItem fail db req).1 := by
  unfold CreateItem
  repeat' split
  all_goals first
    | exact envelope_failure _ _ (by decide)
    | exact envelope_success _ _ _ (by decide)

theorem UpdateItem_envelope [Zero M] [LT M] [∀ a b : M, Decidable (a < b)] (fail : Site → Bool)
    (db : DB M) (id : Nat) (body : Option (UpdateItemRequest M)) :
    Envelope (UpdateItem fail db id body).1 := by
  unfold UpdateItem
  repeat' split
  all_goals first
    | exact envelope_failure _ _ (by decide)
    | exact envelope_success _ _ _ (by decide)

theorem DeleteItem_envelope (fail : Site → Bool) (db : DB M) (id : Nat) :
    Envelope (DeleteItem fail db id).1 := by
  unfold DeleteItem
  repeat' split
  all_goals first
    | exact envelope_failure _ _ (by decide)
    | exact envelope_success _ _ _ (by decide)

theorem GetAllSuppliers_envelope (fail : Site → Bool) (db : DB M) :
    Envelope (GetAllSuppliers fail db) := by
  unfold GetAllSuppliers
  split
  · exact envelope_failure _ _ (by decide)
  · exact envelope_success _ _ _ (by decide)

theorem GetSupplier_envelope (fail : Site → Bool) (db : DB M) (id : Nat) :
    Envelope (GetSupplier fail db id) := by
  unfold GetSupplier
  split
  · exact envelope_failure _ _ (by decide)
  · exact envelope_success _ _ _ (by decide)

theorem CreateSupplier_envelope (fail : Site → Bool) (db : DB M) (req : CreateSupplierRequest) :
    Envelope (CreateSupplier fail db req).1 := by
  unfold CreateSupplier
  repeat' split
  all_goals first
    | exact envelope_failure _ _ (by decide)
    | exact envelope_success _ _ _ (by decide)

theorem UpdateSupplier_envelope (fail : Site → Bool) (db : DB M) (id : Nat)
    (body : Option UpdateSupplierRequest) : Envelope (UpdateSupplier fail db id body).1 := by
  unfold UpdateSupplier
  repeat' split
  all_goals first
    | exact envelope_failure _ _ (by decide)
    | exact envelope_success _ _ _ (by decide)

theorem DeleteSupplier_envelope (fail : Site → Bool) (db : DB M) (id : Nat) :
    Envelope (DeleteSupplier fail db id).1 := by
  unfold DeleteSupplier
  repeat' split
  all_goals first
    | exact envelope_failure _ _ (by decide)
    | exact envelope_success _ _ _ (by decide)

theorem Register_envelope (fail : Site → Bool) (hash : String → Option String) (db : DB M)
    (req : RegisterRequest) : Envelope (Register fail hash db req).1 := by
  unfold Register
  repeat' split
  all_goals first
    | exact envelope_failure _ _ (by decide)
    | exact envelope_success _ _ _ (by decide)

theorem Login_envelope (fail : Site → Bool) (verify : String → String → Bool)
    (sign : MapClaims → Option String) (now : Nat) (db : DB M) (req : LoginRequest) :
    Envelope (Login fail verify sign now db req) := by
  unfold Login
  repeat' split
  all_goals first
    | exact envelope_failure _ _ (by decide)
    | exact envelope_success _ _ _ (by decide)

theorem GetProfile_envelope (fail : Site → Bool) (db : DB M) (userID : Nat) :
    Envelope (GetProfile fail db userID) := by
  unfold GetProfile
  split
  · exact envelope_failure _ _ (by decide)
  · exact envelope_success _ _ _ (by decide)

theorem handle_envelope [Zero M] [Add M] [Mul M] [IntCast M] [LT M]
    [∀ a b : M, Decidable (a < b)] (env : Env) (l : Locals) (db : DB M)
    (r : ProtectedRequest M) : Envelope (handle env l db r).1 := by
  cases r with
  | getProfile => exact GetProfile_envelope _ _ _
  | getAllItems => exact GetAllItems_envelope _ _
  | getItem id => exact GetItem_envelope _ _ _
  | createItem body =>
    cases body with
    | none => exact envelope_failure _ _ (by decide)
    | some r => exact CreateItem_envelope _ _ _
  | updateItem id body => exact UpdateItem_envelope _ _ _ _
  | deleteItem id => exact DeleteItem_envelope _ _ _
  | getAllSuppliers => exact GetAllSuppliers_envelope _ _
  | getSupplier id => exact GetSupplier_envelope _ _ _
  | createSupplier body =>
    cases body with
    | none => exact envelope_failure _ _ (by decide)
    | some r => exact CreateSupplier_envelope _ _ _
  | updateSupplier id body => exact UpdateSupplier_envelope _ _ _ _
  | deleteSupplier id => exact DeleteSupplier_envelope _ _ _
  | getAllPurchases => exact GetAllPurchases_envelope _ _
  | getPurchase id => exact GetPurchase_envelope _ _ _
  | createPurchase body =>
    cases body with
    | none => exact envelope_failure _ _ (by decide)
    | some r => exact CreatePurchase_envelope _ _ _ _ _

theorem AuthMiddleware_envelope (parse : String → Option TokenClaims) (authHeader : String)
    (r : Response M) (h : AuthMiddleware parse authHeader = .respond r) : Envelope r := by
  unfold AuthMiddleware at h
  split at h
  · cases h; exact envelope_failure _ _ (by decide)
  · simp only [] at h
    split at h
    · split at h
      · cases h; exact envelope_failure _ _ (by decide)
      · split at h
        · cases h; exact envelope_failure _ _ (by decide)
        · cases h; exact envelope_failure _ _ (by decide)
        · split at h
          · split at h
            · split at h
              · cases h
              · cases h
            · cases h
          · cases h
    · cases h; exact envelope_failure _ _ (by decide)

/-- C14, counterexample: the health check answers 200 with the field `status`
and without a field `success`. -/
theorem health_no_success :
    (serve plainEnv boltStore Request.health).1.status = 200 ∧
      (serve plainEnv boltStore Request.health).1.success = none ∧
      (serve plainEnv boltStore Request.health).1.other = [("status", "ok")] := by
  decide

/-- C14, amended: on every route of the routing table other than `/health`, for
every store, body, authorization header and outcome (the answers of the
middleware and the 500 of a recovered panic included), the response is an
object with a boolean field `success`, optionally `message` and `data`, and no
other field, and `success` is true exactly when the status code is 2xx.  The
health check answers 200 with the fields `status` and `message` only. -/
theorem response_envelope [Zero M] [Add M] [Mul M] [IntCast M] [LT M]
    [∀ a b : M, Decidable (a < b)] (env : Env) (db : DB M) :
    (∀ req : Request M, req ≠ Request.health → Envelope (serve env db req).1) ∧
      (serve env db (Request.health : Request M)).1 =
        ⟨200, none, some "Procurement System API is running", none, [("status", "ok")]⟩ := by
  refine ⟨?_, rfl⟩
  intro req hreq
  cases req with
  | health => exact absurd rfl hreq
  | register body =>
    cases body with
    | none => exact envelope_failure _ _ (by decide)
    | some r => exact Register_envelope _ _ _ _
  | login body =>
    cases body with
    | none => exact envelope_failure _ _ (by decide)
    | some r => exact Login_envelope _ _ _ _ _ _
  | secured authHeader r =>
    simp only [serve, protect]
    split
    · rename_i resp hresp
      exact AuthMiddleware_envelope _ _ _ hresp
    · exact envelope_failure _ _ (by decide)
    · exact handle_envelope _ _ _ _

/-- C14, witness: a purchase answered 201 and a request without authorization
header answered 401 both have the envelope. -/
theorem response_envelope_witness :
    (Request.secured "Bearer t" (.createPurchase (some ⟨1, [⟨1, 3⟩]⟩)) : Request ℚ) ≠
        Request.health ∧
      Envelope (serve plainEnv boltStore
        (.secured "Bearer t" (.createPurchase (some ⟨1, [⟨1, 3⟩]⟩)))).1 ∧
      (serve plainEnv boltStore
        (.secured "Bearer t" (.createPurchase (some ⟨1, [⟨1, 3⟩]⟩)))).1.status = 201 ∧
      Envelope (serve plainEnv boltStore (.secured "" .getAllItems)).1 ∧
      (serve plainEnv boltStore (.secured "" .getAllItems)).1.status = 401 :=
  ⟨Request.noConfusion,
    (response_envelope plainEnv boltStore).1 _ Request.noConfusion, by decide,
    (response_envelope plainEnv boltStore).1 _ Request.noConfusion, by decide⟩

/-! ## Duplicate lines -/

theorem qtyOf_nil (id : Nat) : qtyOf [] id = 0 := by
  simp [qtyOf]

theorem qtyOf_append (a b : List PurchaseItemRequest) (id : Nat) :
    qtyOf (a ++ b) id = qtyOf a id + qtyOf b id := by
  simp [qtyOf, List.filter_append]

theorem qtyOf_nonneg (lines : List PurchaseItemRequest) (id : Nat)
    (h : ∀ l ∈ lines, 0 < l.Qty) : 0 ≤ qtyOf lines id := by
  induction lines with
  | nil => simp [qtyOf]
  | cons l rest ih =>
    rw [qtyOf_cons]
    have h1 := h l (List.mem_cons_self _ _)
    have h2 := ih (fun x hx => h x (List.mem_cons_of_mem _ hx))
    split <;> omega

theorem firstItem_afterLine [Mul M] [IntCast M] (pid : Nat) (w : DB M)
    (l : PurchaseItemRequest) (item : Item M) (hitem : firstItem w.items l.ItemID = some item)
    (j : Nat) (it : Item M) (hit : firstItem w.items j = some it) :
    ∃ it2, firstItem (afterLine pid w l item).items j = some it2 ∧ it2.Name = it.Name ∧
      it2.Stock = it.Stock - (if l.ItemID = j then l.Qty else 0) := by
  obtain ⟨_, hid, hlive⟩ := firstItem_some hit
  obtain ⟨_, hid2, _⟩ := firstItem_some hitem
  simp only [afterLine, firstItem_updateStock, hit, Option.map]
  by_cases hj : l.ItemID = j
  · subst hj
    rw [hitem] at hit
    cases hit
    refine ⟨_, rfl, ?_, ?_⟩
    · split <;> rfl
    · simp [hlive]
  · refine ⟨_, rfl, ?_, ?_⟩
    · split <;> rfl
    · have hne : (it.ID == item.ID) = false := by
        rw [hid, hid2]
        simpa using fun e => hj e.symm
      simp [hne, hj]

theorem processItems_noFail_cons [Add M] [Mul M] [IntCast M] (pid k : Nat)
    (l : PurchaseItemRequest) (rest : List PurchaseItemRequest) (g : M) (w : DB M)
    (item : Item M) (h0 : l.ItemID ≠ 0) (hq : 0 < l.Qty)
    (hitem : firstItem w.items l.ItemID = some item) :
    processItems noFail pid k (l :: rest) g w =
      if item.Stock < l.Qty then
        .error (failure 400 (insufficientStockMsg item.Name item.Stock l.Qty))
      else
        processItems noFail pid (k + 1) rest (g + item.Price * ((l.Qty : Int) : M))
          (afterLine pid w l item) := by
  have hv : ¬ (l.ItemID = 0 ∨ l.Qty ≤ 0) := by
    push_neg
    exact ⟨h0, hq⟩
  rw [processItems, if_neg hv]
  simp only [noFail, Bool.false_eq_true, if_false, hitem]
  rfl

theorem processItems_noFail_short [Add M] [Mul M] [IntCast M] (pid : Nat)
    (lines : List PurchaseItemRequest) :
    ∀ (k : Nat) (g : M) (w : DB M) (r : Response M),
      (∀ l ∈ lines, l.ItemID ≠ 0 ∧ 0 < l.Qty ∧ ∃ it, firstItem w.items l.ItemID = some it) →
      processItems noFail pid k lines g w = .error r →
      ∃ pre l post it, lines = pre ++ l :: post ∧ firstItem w.items l.ItemID = some it ∧
        it.Stock - qtyOf pre l.ItemID < l.Qty ∧
        r = failure 400
          (insufficientStockMsg it.Name (it.Stock - qtyOf pre l.ItemID) l.Qty) := by
  induction lines with
  | nil => intro k g w r _ h; simp [processItems] at h
  | cons l rest ih =>
    intro k g w r hvalid h
    obtain ⟨h0, hq, item, hitem⟩ := hvalid l (List.mem_cons_self _ _)
    rw [processItems_noFail_cons pid k l rest g w item h0 hq hitem] at h
    by_cases hlt : item.Stock < l.Qty
    · rw [if_pos hlt] at h
      cases h
      refine ⟨[], l, rest, item, rfl, hitem, ?_, ?_⟩
      · rw [qtyOf_nil]; omega
      · rw [qtyOf_nil, sub_zero]
    · rw [if_neg hlt] at h
      have hvalid2 : ∀ x ∈ rest, x.ItemID ≠ 0 ∧ 0 < x.Qty ∧
          ∃ it, firstItem (afterLine pid w l item).items x.ItemID = some it := by
        intro x hx
        obtain ⟨a, b, it, hit⟩ := hvalid x (List.mem_cons_of_mem _ hx)
        obtain ⟨it2, h2, _⟩ := firstItem_afterLine pid w l item hitem _ it hit
        exact ⟨a, b, it2, h2⟩
      obtain ⟨pre, x, post, it2, hsplit, hit2, hshort, hr⟩ := ih _ _ _ _ hvalid2 h
      have hx : x ∈ rest := by rw [hsplit]; simp
      obtain ⟨_, _, it, hit⟩ := hvalid x (List.mem_cons_of_mem _ hx)
      obtain ⟨it3, h3, hname, hstock⟩ := firstItem_afterLine pid w l item hitem _ it hit
      rw [hit2] at h3
      cases h3
      have hq2 : it2.Stock - qtyOf pre x.ItemID = it.Stock - qtyOf (l :: pre) x.ItemID := by
        rw [qtyOf_cons, hstock]
        omega
      refine ⟨l :: pre, x, post, it, by rw [hsplit]; rfl, hit, ?_, ?_⟩
      · rw [← hq2]; exact hshort
      · rw [hr, hname, hq2]

theorem processItems_ok_final [Add M] [Mul M] [IntCast M] (fail : Site → Bool) (pid : Nat)
    (lines : List PurchaseItemRequest) :
    ∀ (k : Nat) (g : M) (w : DB M) (res : M × DB M),
      processItems fail pid k lines g w = .ok res →
      ∀ id it, firstItem w.items id = some it →
        ∃ it2, firstItem res.2.items id = some it2 ∧ it2.Stock = it.Stock - qtyOf lines id := by
  induction lines with
  | nil =>
    intro k g w res h id it hit
    simp only [processItems, Except.ok.injEq] at h
    subst h
    exact ⟨it, hit, by rw [qtyOf_nil, sub_zero]⟩
  | cons l rest ih =>
    intro k g w res h id it hit
    obtain ⟨item, _, _, _, hitem, _, _, _, hrest⟩ := processItems_cons_ok h
    obtain ⟨it2, h2, _, hstock⟩ := firstItem_afterLine pid w l item hitem id it hit
    obtain ⟨it3, h3, hstock3⟩ := ih _ _ _ _ hrest id it2 h2
    refine ⟨it3, h3, ?_⟩
    rw [hstock3, hstock, qtyOf_cons]
    omega

theorem CreatePurchase_noFail_eq [Zero M] [Add M] [Mul M] [IntCast M] (now userID : Nat)
    (db : DB M) (req : CreatePurchaseRequest) (h0 : req.SupplierID ≠ 0) (hne : req.Items ≠ [])
    (s : Supplier) (hs : firstSupplier db.suppliers req.SupplierID = some s) :
    (∀ r, processItems noFail (newHeader now userID db req (0 : M)).ID 0 req.Items 0
          { db with purchasings := db.purchasings ++ [newHeader now userID db req 0] } =
          .error r →
        CreatePurchase noFail now userID db req = (r, db)) ∧
      (∀ res, processItems noFail (newHeader now userID db req (0 : M)).ID 0 req.Items 0
          { db with purchasings := db.purchasings ++ [newHeader now userID db req 0] } =
          .ok res →
        (CreatePurchase noFail now userID db req).1.status = 201) := by
  have hlen : ¬ req.Items.length = 0 := by
    intro h
    exact hne (List.length_eq_zero.mp h)
  constructor
  · intro r hr
    unfold CreatePurchase
    rw [if_neg h0, if_neg hlen]
    simp only [noFail, Bool.false_eq_true, if_false, hs, Begin, Rollback]
    simp only [newHeader] at hr
    rw [hr]
  · intro res hr
    unfold CreatePurchase
    rw [if_neg h0, if_neg hlen]
    simp only [noFail, Bool.false_eq_true, if_false, hs, Begin, Rollback]
    simp only [newHeader] at hr
    rw [hr]
    rfl

theorem CreatePurchase_lines [Zero M] [Add M] [Mul M] [IntCast M] (fail : Site → Bool)
    (now userID : Nat) (db : DB M) (req : CreatePurchaseRequest)
    (h : (CreatePurchase fail now userID db req).1.status = 201) :
    ∃ news : List (PurchasingDetail M),
      (CreatePurchase fail now userID db req).2.details = db.details ++ news ∧
      news.map (fun d => (d.ItemID, d.Qty)) = req.Items.map (fun l => (l.ItemID, l.Qty)) ∧
      ∀ d ∈ news, d.PurchasingID = nextID (db.purchasings.map (fun p => p.ID)) := by
  rcases CreatePurchase_cases fail now userID db req with
    ⟨hs, _⟩ | ⟨_, _, _, _, _, g, w, hp, hdb⟩
  · rw [h] at hs
    rcases hs with hs | hs <;> cases hs
  · obtain ⟨news, h1, _, h3, h4⟩ := processItems_ok_details _ _ _ _ _ _ _ hp
    refine ⟨news, ?_, h3, fun d hd => (h4 d hd).1⟩
    rw [hdb]
    exact h1

/-- C15, counterexample: a request with an existing supplier and an empty item
list has no line that breaks a condition, and asks of every item no more than
its stock, yet it is answered 400. -/
theorem empty_purchase_rejected :
    (∃ s, firstSupplier boltStore.suppliers 1 = some s) ∧
      (∀ l ∈ (⟨1, []⟩ : CreatePurchaseRequest).Items, l.ItemID ≠ 0 ∧ 0 < l.Qty ∧
        ∃ it, firstItem boltStore.items l.ItemID = some it) ∧
      (∀ id it, firstItem boltStore.items id = some it →
        qtyOf (⟨1, []⟩ : CreatePurchaseRequest).Items id ≤ it.Stock) ∧
      (CreatePurchase noFail 0 1 boltStore ⟨1, []⟩).1.status = 400 := by
  refine ⟨⟨_, rfl⟩, by simp, ?_, by decide⟩
  intro id it hit
  have hmem := (firstItem_some hit).1
  simp only [boltStore, List.mem_singleton] at hmem
  subst hmem
  simp [qtyOf]

/-- C15, amended: duplicate lines are not merged.  For every request with an
existing supplier and a non-empty item list whose lines all have an item id
other than 0, a positive quantity and a live item, with no failing store call,
on a store without negative stock: the request is answered 201 if and only if,
for every item, the sum of the quantities of the lines naming it is at most the
stock of the item before the request; when it is answered 201, the store gains
exactly one line per request line, in request order, with the item id and the
quantity of that line, all under the key of the new order; and when it is not,
the response is 400 with the insufficient-stock message of the first line the
stock does not cover, whose `Available` figure is the stock of the item before
the request minus the quantities of the earlier lines naming it. -/
theorem createPurchase_duplicate_lines [Zero M] [Add M] [Mul M] [IntCast M]
    (now userID : Nat) (db : DB M) (req : CreatePurchaseRequest)
    (hsup : req.SupplierID ≠ 0 ∧ ∃ s, firstSupplier db.suppliers req.SupplierID = some s)
    (hne : req.Items ≠ [])
    (hvalid : ∀ l ∈ req.Items, l.ItemID ≠ 0 ∧ 0 < l.Qty ∧
      ∃ it, firstItem db.items l.ItemID = some it)
    (hnn : StockNonneg db) :
    ((CreatePurchase noFail now userID db req).1.status = 201 ↔
        ∀ id it, firstItem db.items id = some it → qtyOf req.Items id ≤ it.Stock) ∧
      ((CreatePurchase noFail now userID db req).1.status = 201 →
        ∃ news : List (PurchasingDetail M),
          (CreatePurchase noFail now userID db req).2.details = db.details ++ news ∧
          news.map (fun d => (d.ItemID, d.Qty)) =
            req.Items.map (fun l => (l.ItemID, l.Qty)) ∧
          ∀ d ∈ news, d.PurchasingID = nextID (db.purchasings.map (fun p => p.ID))) ∧
      ((CreatePurchase noFail now userID db req).1.status ≠ 201 →
        ∃ pre l post it, req.Items = pre ++ l :: post ∧
          firstItem db.items l.ItemID = some it ∧
          it.Stock - qtyOf pre l.ItemID < l.Qty ∧
          (CreatePurchase noFail now userID db req).1 = failure 400
            (insufficientStockMsg it.Name (it.Stock - qtyOf pre l.ItemID) l.Qty)) := by
  obtain ⟨h0, s, hs⟩ := hsup
  obtain ⟨herr, hok⟩ := CreatePurchase_noFail_eq now userID db req h0 hne s hs
  have hv0 : ∀ l ∈ req.Items, l.ItemID ≠ 0 ∧ 0 < l.Qty ∧
      ∃ it, firstItem ({ db with purchasings :=
        db.purchasings ++ [newHeader now userID db req 0] } : DB M).items l.ItemID = some it :=
    hvalid
  refine ⟨?_, CreatePurchase_lines noFail now userID db req, ?_⟩
  · cases hP : processItems noFail (newHeader now userID db req (0 : M)).ID 0 req.Items 0
        { db with purchasings := db.purchasings ++ [newHeader now userID db req 0] } with
    | error r =>
      obtain ⟨pre, l, post, it, hsplit, hit, hshort, hr⟩ :=
        processItems_noFail_short _ _ _ _ _ _ hv0 hP
      have hstat : (CreatePurchase noFail now userID db req).1.status = 400 := by
        rw [herr r hP, hr]; rfl
      constructor
      · intro h; rw [hstat] at h; cases h
      · intro hall
        exfalso
        have hle := hall l.ItemID it hit
        have hpost : 0 ≤ qtyOf post l.ItemID :=
          qtyOf_nonneg post l.ItemID (fun x hx => (hvalid x (by rw [hsplit]; simp [hx])).2.1)
        rw [hsplit, qtyOf_append, qtyOf_cons, if_pos rfl] at hle
        omega
    | ok res =>
      have hstat := hok res hP
      refine ⟨fun _ => ?_, fun _ => hstat⟩
      intro id it hit
      obtain ⟨it2, h2, hstock⟩ := processItems_ok_final _ _ _ _ _ _ _ hP id it hit
      have hw0 : StockNonneg
          { db with purchasings := db.purchasings ++ [newHeader now userID db req 0] } := hnn
      have hfin := processItems_ok_nonneg _ _ _ _ _ _ _ hw0 hP it2 (firstItem_some h2).1
      omega
  · intro hfail
    cases hP : processItems noFail (newHeader now userID db req (0 : M)).ID 0 req.Items 0
        { db with purchasings := db.purchasings ++ [newHeader now userID db req 0] } with
    | error r =>
      obtain ⟨pre, l, post, it, hsplit, hit, hshort, hr⟩ :=
        processItems_noFail_short _ _ _ _ _ _ hv0 hP
      exact ⟨pre, l, post, it, hsplit, hit, hshort, by rw [herr r hP, hr]⟩
    | ok res => exact absurd (hok res hP) hfail

/-- C15, witness: with stock 10, two lines of 3 and 7 Bolts are accepted and
stored as two lines; two lines of 3 and 8 are refused with `Available: 7`. -/
theorem createPurchase_duplicate_lines_witness :
    ((1 ≠ 0 ∧ ∃ s, firstSupplier boltStore.suppliers 1 = some s) ∧
      StockNonneg boltStore) ∧
    ((CreatePurchase noFail 0 1 boltStore ⟨1, [⟨1, 3⟩, ⟨1, 7⟩]⟩).1.status = 201 ∧
      (CreatePurchase noFail 0 1 boltStore ⟨1, [⟨1, 3⟩, ⟨1, 7⟩]⟩).2.details.map
        (fun d => (d.ItemID, d.Qty)) = [(1, 3), (1, 7)]) ∧
    (CreatePurchase noFail 0 1 boltStore ⟨1, [⟨1, 3⟩, ⟨1, 8⟩]⟩).1.status ≠ 201 ∧
    (CreatePurchase noFail 0 1 boltStore ⟨1, [⟨1, 3⟩, ⟨1, 8⟩]⟩).1 =
      failure 400 (insufficientStockMsg "Bolt" 7 8) ∧
    ∃ pre l post it, [(⟨1, 3⟩ : PurchaseItemRequest), ⟨1, 8⟩] = pre ++ l :: post ∧
      firstItem boltStore.items l.ItemID = some it ∧
      it.Stock - qtyOf pre l.ItemID < l.Qty ∧
      (CreatePurchase noFail 0 1 boltStore ⟨1, [⟨1, 3⟩, ⟨1, 8⟩]⟩).1 = failure 400
        (insufficientStockMsg it.Name (it.Stock - qtyOf pre l.ItemID) l.Qty) :=
  ⟨⟨⟨by decide, _, rfl⟩, by unfold StockNonneg; decide⟩, ⟨by decide, by decide⟩, by decide,
    by decide,
    (createPurchase_duplicate_lines 0 1 boltStore ⟨1, [⟨1, 3⟩, ⟨1, 8⟩]⟩
      ⟨by decide, _, rfl⟩ (by decide)
      (by
        intro l hl
        simp only [List.mem_cons, List.mem_singleton, List.not_mem_nil, or_false] at hl
        rcases hl with rfl | rfl
        · exact ⟨by decide, by decide, _, rfl⟩
        · exact ⟨by decide, by decide, _, rfl⟩)
      (by unfold StockNonneg; decide)).2.2 (by decide)⟩

end Procurement
